import Mathlib

/-!
Shallow embedding of the entitlement ledger of the event-management backend.

The embedding follows `src/routes/participants.js`, `src/routes/settings.js`
and the route file preserved as `src/unnamed/part_001`.  JavaScript numbers
that hold counts are modelled as `Int` (so that the unvalidated
`parseInt(count)` inputs, including zero and negative values, are
representable); timestamps (`new Date()`) and actor ids (`req.user.id`) are
modelled as `Nat` parameters supplied once per request, mirroring the fact
that a single handler invocation stamps one instant and one grantor.
Mongoose `findOne` is modelled as `List.find?`, and `participant.save()` as
replacement of the document (keyed by `participantId`) inside the list that
models the collection.
-/

namespace EventBackend

/-- A row of the `EventSettings` collection: a `settingName` / `settingValue`
pair (`src/models/EventSettings.js`).  Limit values are numeric. -/
structure Setting where
  settingName : String
  settingValue : Int
  deriving Repr, DecidableEq

/-- One entitlement instance held by a participant, as used by the dynamic
routes of `src/routes/participants.js` (array-shaped `participant.entitlements`
with a `templateId` reference, denormalized template data and the mutable
grant state). -/
structure EntitlementInstance where
  templateId : Nat
  name : String
  description : String
  category : String
  isCountable : Bool
  maxCount : Int
  given : Int
  givenAt : List Nat
  givenBy : List Nat
  addedBy : Option Nat
  addedAt : Nat
  undoneBy : Option Nat
  undoneAt : Option Nat
  lastUndoneCount : Int
  deriving Repr, DecidableEq

/-- An entry of `participant.customEntitlements`
(`src/models/Participant.js`): like an instance but without a template
reference. -/
structure CustomEntitlement where
  name : String
  description : String
  category : String
  isCountable : Bool
  maxCount : Int
  given : Int
  givenAt : List Nat
  givenBy : List Nat
  addedBy : Option Nat
  addedAt : Nat
  undoneBy : Option Nat
  undoneAt : Option Nat
  lastUndoneCount : Int
  deriving Repr, DecidableEq

/-- An entry of `participant.entitlementHistory`. -/
structure HistoryEntry where
  entitlementName : String
  action : String
  count : Int
  performedAt : Nat
  performedBy : Nat
  deriving Repr, DecidableEq

/-- A participant document as consumed by the dynamic entitlement routes of
`src/routes/participants.js` (revision with array-shaped `entitlements`) and
by the auto-assign route of `src/routes/settings.js` (which works on
`customEntitlements`). -/
structure Participant where
  participantId : String
  name : String
  isPlayer : Bool
  isPresent : Bool
  entitlements : List EntitlementInstance
  customEntitlements : List CustomEntitlement
  entitlementHistory : List HistoryEntry
  deriving Repr, DecidableEq

/-- A catalog entry of `src/models/EntitlementTemplate.js`. -/
structure EntitlementTemplate where
  id : Nat
  name : String
  description : String
  category : String
  isCountable : Bool
  maxCount : Int
  defaultForPlayers : Bool
  defaultForParticipants : Bool
  isActive : Bool
  deriving Repr, DecidableEq

/-- The distinct rejection codes returned by the distribute / undo handlers
(`ENTITLEMENT_NAME_REQUIRED`, `PARTICIPANT_NOT_FOUND`,
`PARTICIPANT_NOT_PRESENT`, `ENTITLEMENT_NOT_FOUND`,
`ENTITLEMENT_LIMIT_EXCEEDED`, `ENTITLEMENT_ALREADY_GIVEN`,
`NOTHING_TO_UNDO`). -/
inductive ApiError where
  | entitlementNameRequired
  | participantNotFound
  | participantNotPresent
  | entitlementNotFound
  | entitlementLimitExceeded
  | entitlementAlreadyGiven
  | nothingToUndo
  deriving Repr, DecidableEq

/-- JavaScript's `String.prototype.toLowerCase` (the names involved are
ASCII): lower-case every character. -/
def jsToLower (s : String) : String := String.mk (s.data.map Char.toLower)

/-- Map entitlement names to setting keys
(`getSettingKeyForEntitlement`, `src/routes/participants.js` lines 50-57):
a case-insensitive table with the three keys `beer`, `soft drinks`,
`soft drink`; anything else maps to `null`. -/
def getSettingKeyForEntitlement (name : String) : Option String :=
  if jsToLower name = "beer" then some "beerLimit"
  else if jsToLower name = "soft drinks" then some "softDrinkLimit"
  else if jsToLower name = "soft drink" then some "softDrinkLimit"
  else none

/-- `EventSettings.findOne({ settingName: key })`. -/
def findSetting (settings : List Setting) (key : String) : Option Setting :=
  settings.find? (fun s => s.settingName == key)

/-- Get entitlement limit from settings with fallback to the stored cap
(`getEntitlementLimit`, `src/routes/participants.js` lines 42-47). -/
def getEntitlementLimit (settings : List Setting) (entitlementName : String)
    (templateMaxCount : Int) : Int :=
  match getSettingKeyForEntitlement entitlementName with
  | none => templateMaxCount
  | some settingKey =>
    match findSetting settings settingKey with
    | some setting => setting.settingValue
    | none => templateMaxCount

/-- `Participant.findOne({ participantId })`. -/
def findParticipant (db : List Participant) (pid : String) : Option Participant :=
  db.find? (fun p => p.participantId == pid)

/-- The predicate of `participant.entitlements.find(e => e.name.toLowerCase()
=== entitlementName.toLowerCase())`. -/
def nameMatches (entitlementName : String) (e : EntitlementInstance) : Bool :=
  jsToLower e.name == jsToLower entitlementName

/-- Mutating the object returned by `Array.prototype.find` in place is, on the
owning array, an update of its first matching element; `updateFirst` expresses
that array-level effect. -/
def updateFirst (p : α → Bool) (f : α → α) : List α → List α
  | [] => []
  | x :: xs => if p x then f x :: xs else x :: updateFirst p f xs

/-- `arr.splice(-n, n)` on the model list: for `n ≤ 0` JavaScript deletes
nothing (the delete count is clamped to `0`); for `n > 0` it deletes the last
`min n arr.length` elements. -/
def spliceLast (l : List α) (n : Int) : List α :=
  if n ≤ 0 then l else l.take (l.length - n.toNat)

/-- The countable success branch of the distribute handler
(`src/routes/participants.js` lines 648-652): `given += requestedCount` and
one `(new Date(), req.user.id)` pair pushed per loop iteration — the loop body
runs `requestedCount` times when that is positive and not at all otherwise. -/
def grantCountable (requestedCount : Int) (userId now : Nat)
    (e : EntitlementInstance) : EntitlementInstance :=
  { e with given := e.given + requestedCount,
           givenAt := e.givenAt ++ List.replicate requestedCount.toNat now,
           givenBy := e.givenBy ++ List.replicate requestedCount.toNat userId }

/-- The non-countable success branch (`src/routes/participants.js` lines
662-664): `given = effectiveMaxCount` and exactly one pair pushed. -/
def grantNonCountable (settings : List Setting) (userId now : Nat)
    (e : EntitlementInstance) : EntitlementInstance :=
  { e with given := getEntitlementLimit settings e.name e.maxCount,
           givenAt := e.givenAt ++ [now],
           givenBy := e.givenBy ++ [userId] }

/-- Append the history entry pushed on every successful distribution
(`src/routes/participants.js` lines 668-674) and install the updated
entitlement array. -/
def recordDistribution (p : Participant) (instanceName : String) (c : Int)
    (userId now : Nat) (ents : List EntitlementInstance) : Participant :=
  { p with entitlements := ents,
           entitlementHistory := p.entitlementHistory ++
             [{ entitlementName := instanceName, action := "distributed",
                count := c, performedAt := now, performedBy := userId }] }

/-- The body of `POST /:participantId/entitlement`
(`src/routes/participants.js` lines 592-697), after the permission gate:
name-required, participant-exists, is-present and instance-exists checks in
that order, then the countable / non-countable branches guarded by the
effective cap. -/
def distributeEntitlement (settings : List Setting) (db : List Participant)
    (participantId entitlementName : String) (count : Int)
    (userId now : Nat) : Except ApiError Participant :=
  if entitlementName = "" then .error .entitlementNameRequired else
  match findParticipant db participantId with
  | none => .error .participantNotFound
  | some participant =>
    if participant.isPresent = false then .error .participantNotPresent else
    match participant.entitlements.find? (nameMatches entitlementName) with
    | none => .error .entitlementNotFound
    | some entitlement =>
      let requestedCount := count
      let effectiveMaxCount :=
        getEntitlementLimit settings entitlement.name entitlement.maxCount
      if entitlement.isCountable then
        if effectiveMaxCount < entitlement.given + requestedCount then
          .error .entitlementLimitExceeded
        else
          .ok (recordDistribution participant entitlement.name requestedCount
                userId now
                (updateFirst (nameMatches entitlementName)
                  (grantCountable requestedCount userId now)
                  participant.entitlements))
      else
        if effectiveMaxCount ≤ entitlement.given then
          .error .entitlementAlreadyGiven
        else
          .ok (recordDistribution participant entitlement.name requestedCount
                userId now
                (updateFirst (nameMatches entitlementName)
                  (grantNonCountable settings userId now)
                  participant.entitlements))

/-- Per-instance effect of the undo handler (`src/routes/participants.js`
lines 744-758): clamp the request to `given`, then truncate the tails
(countable) or reset fully (non-countable), and record the undo bookkeeping
fields. -/
def applyUndo (count : Int) (userId now : Nat)
    (e : EntitlementInstance) : EntitlementInstance :=
  let undoCount := min count e.given
  if e.isCountable then
    { e with given := e.given - undoCount,
             givenAt := spliceLast e.givenAt undoCount,
             givenBy := spliceLast e.givenBy undoCount,
             undoneBy := some userId, undoneAt := some now,
             lastUndoneCount := undoCount }
  else
    { e with given := 0, givenAt := [], givenBy := [],
             undoneBy := some userId, undoneAt := some now,
             lastUndoneCount := undoCount }

/-- The body of `DELETE /:participantId/entitlement`
(`src/routes/participants.js` lines 700-789): no presence check; rejects when
the instance has `given === 0`; otherwise undoes `min count given` units and
appends an `"undone"` history entry. -/
def undoEntitlement (db : List Participant)
    (participantId entitlementName : String) (count : Int)
    (userId now : Nat) : Except ApiError Participant :=
  if entitlementName = "" then .error .entitlementNameRequired else
  match findParticipant db participantId with
  | none => .error .participantNotFound
  | some participant =>
    match participant.entitlements.find? (nameMatches entitlementName) with
    | none => .error .entitlementNotFound
    | some entitlement =>
      if entitlement.given = 0 then .error .nothingToUndo else
      let undoCount := min count entitlement.given
      .ok { participant with
            entitlements := updateFirst (nameMatches entitlementName)
              (applyUndo count userId now) participant.entitlements,
            entitlementHistory := participant.entitlementHistory ++
              [{ entitlementName := entitlement.name, action := "undone",
                 count := undoCount, performedAt := now,
                 performedBy := userId }] }

/-- `participant.save()`: replace the document with the given
`participantId` in the collection. -/
def saveParticipant (db : List Participant) (p : Participant) :
    List Participant :=
  db.map (fun q => if q.participantId == p.participantId then p else q)

/-- Collection-level effect of one distribute request: on any rejection the
handler returns before `participant.save()`, so the store is unchanged. -/
def distributeDb (settings : List Setting) (db : List Participant)
    (participantId entitlementName : String) (count : Int)
    (userId now : Nat) : List Participant :=
  match distributeEntitlement settings db participantId entitlementName count
      userId now with
  | .error _ => db
  | .ok p => saveParticipant db p

/-- Collection-level effect of one undo request. -/
def undoDb (db : List Participant)
    (participantId entitlementName : String) (count : Int)
    (userId now : Nat) : List Participant :=
  match undoEntitlement db participantId entitlementName count userId now with
  | .error _ => db
  | .ok p => saveParticipant db p

/-- The cap actually enforced for an instance at distribution time. -/
def effectiveCap (settings : List Setting) (e : EntitlementInstance) : Int :=
  getEntitlementLimit settings e.name e.maxCount

/-- The ledger invariant stated by the specification for an entitlement
instance: `given == len(givenAt) == len(givenBy)` and
`0 <= given <= effectiveCap`. -/
def entitlementInvariant (settings : List Setting)
    (e : EntitlementInstance) : Prop :=
  e.given = (e.givenAt.length : Int) ∧ e.given = (e.givenBy.length : Int) ∧
    0 ≤ e.given ∧ e.given ≤ effectiveCap settings e

/-- Side conditions on an instance's effective cap: nonnegative, and at most
one for a non-countable instance (the "normally 1" case of the
specification). -/
def capWellFormed (settings : List Setting) (e : EntitlementInstance) : Prop :=
  0 ≤ effectiveCap settings e ∧
    (e.isCountable = false → effectiveCap settings e ≤ 1)

/-- One request of the single-participant distribute / undo API. -/
inductive LedgerOp where
  | distribute (entitlementName : String) (count : Int) (userId now : Nat)
  | undo (entitlementName : String) (count : Int) (userId now : Nat)
  deriving Repr, DecidableEq

/-- Run one request against the collection; a rejected request leaves the
collection unchanged. -/
def applyOp (settings : List Setting) (pid : String)
    (db : List Participant) : LedgerOp → List Participant
  | .distribute n c u t => distributeDb settings db pid n c u t
  | .undo n c u t => undoDb db pid n c u t

/-- Run a sequence of requests. -/
def applyOps (settings : List Setting) (pid : String)
    (db : List Participant) (ops : List LedgerOp) : List Participant :=
  ops.foldl (applyOp settings pid) db

/-- The requested count of an operation is a positive integer, as the
specification demands of distribute / undo requests. -/
def opCountPositive : LedgerOp → Prop
  | .distribute _ c _ _ => 1 ≤ c
  | .undo _ c _ _ => 1 ≤ c

/-- The instance pushed by `autoAssignEntitlements`
(`src/routes/participants.js` lines 77-89): template data denormalized, with
the setting-resolved effective cap stored as `maxCount` and `addedBy: null`
(system assigned). -/
def instanceFromTemplate (settings : List Setting) (now : Nat)
    (t : EntitlementTemplate) : EntitlementInstance :=
  { templateId := t.id, name := t.name, description := t.description,
    category := t.category, isCountable := t.isCountable,
    maxCount := getEntitlementLimit settings t.name t.maxCount,
    given := 0, givenAt := [], givenBy := [], addedBy := none, addedAt := now,
    undoneBy := none, undoneAt := none, lastUndoneCount := 0 }

/-- The Mongo query filter of `autoAssignEntitlements`
(`src/routes/participants.js` lines 62-68):
`{ isActive: true, $or: [ { defaultForParticipants: true },
{ defaultForPlayers: participant.isPlayer } ] }`.  Note that for a non-player
the second disjunct matches templates whose `defaultForPlayers` is `false`. -/
def autoAssignQueryMatches (p : Participant)
    (t : EntitlementTemplate) : Bool :=
  t.isActive && (t.defaultForParticipants || (t.defaultForPlayers == p.isPlayer))

/-- One iteration of the `autoAssignEntitlements` loop: skip when the
participant already holds an instance with this template's id
(`e.templateId.toString() === template._id.toString()`), otherwise push a new
instance. -/
def autoAssignStep (settings : List Setting) (now : Nat)
    (p : Participant) (t : EntitlementTemplate) : Participant :=
  if (p.entitlements.find? (fun e => e.templateId == t.id)).isSome then p
  else { p with entitlements :=
          p.entitlements ++ [instanceFromTemplate settings now t] }

/-- `autoAssignEntitlements` (`src/routes/participants.js` lines 60-96): the
registration-time auto-assignment over the templates matched by the Mongo
query. -/
def autoAssignEntitlements (settings : List Setting)
    (templates : List EntitlementTemplate) (now : Nat)
    (p : Participant) : Participant :=
  (templates.filter (autoAssignQueryMatches p)).foldl
    (autoAssignStep settings now) p

/-- The eligibility rule of `POST /auto-assign`
(`src/routes/settings.js` lines 990-992). -/
def shouldAutoAssign (p : Participant) (t : EntitlementTemplate) : Bool :=
  (p.isPlayer && t.defaultForPlayers) || (!p.isPlayer && t.defaultForParticipants)

/-- The custom entitlement pushed by `POST /auto-assign`
(`src/routes/settings.js` lines 1004-1015): the template's own `maxCount`,
no setting lookup. -/
def customFromTemplate (userId now : Nat)
    (t : EntitlementTemplate) : CustomEntitlement :=
  { name := t.name, description := t.description, category := t.category,
    isCountable := t.isCountable, maxCount := t.maxCount, given := 0,
    givenAt := [], givenBy := [], addedBy := some userId, addedAt := now,
    undoneBy := none, undoneAt := none, lastUndoneCount := 0 }

/-- One iteration of the per-participant template loop of `POST /auto-assign`
(`src/routes/settings.js` lines 988-1018): eligibility rule, then a
case-insensitive duplicate-name check against `customEntitlements`. -/
def settingsAutoAssignStep (userId now : Nat) (p : Participant)
    (t : EntitlementTemplate) : Participant :=
  if !(shouldAutoAssign p t) then p
  else if (p.customEntitlements.find?
      (fun e => jsToLower e.name == jsToLower t.name)).isSome then p
  else { p with customEntitlements :=
          p.customEntitlements ++ [customFromTemplate userId now t] }

/-- The per-participant effect of `POST /auto-assign`
(`src/routes/settings.js`): loop over the active templates. -/
def settingsAutoAssign (templates : List EntitlementTemplate)
    (userId now : Nat) (p : Participant) : Participant :=
  (templates.filter (fun t => t.isActive)).foldl
    (settingsAutoAssignStep userId now) p

/-- The legacy fixed entitlement-type tokens of the group-distribution route
(`src/routes/participants.js` lines 1640-1647). -/
def fixedEntitlementTypes : List String :=
  ["breakfast", "lunch", "beer", "eveningMeal", "specialBeverage", "specialMeal"]

/-- A boolean-valued fixed entitlement subdocument
(`src/models/Participant.js`). -/
structure BoolEntitlement where
  given : Bool
  givenAt : Option Nat
  givenBy : Option Nat
  undoneBy : Option Nat
  undoneAt : Option Nat
  deriving Repr, DecidableEq

/-- The counted `beer` fixed entitlement subdocument
(`src/models/Participant.js`). -/
structure BeerEntitlement where
  given : Int
  givenAt : List Nat
  givenBy : List Nat
  undoneBy : Option Nat
  undoneAt : Option Nat
  lastUndoneCount : Int
  deriving Repr, DecidableEq

/-- The fixed `entitlements` object of `src/models/Participant.js`; every
subdocument exists (the schema gives each a default), so the JavaScript
truthiness test `participant.entitlements[type]` succeeds exactly for the six
fixed keys. -/
structure FixedEntitlements where
  breakfast : BoolEntitlement
  lunch : BoolEntitlement
  beer : BeerEntitlement
  eveningMeal : BoolEntitlement
  specialBeverage : BoolEntitlement
  specialMeal : BoolEntitlement
  deriving Repr, DecidableEq

/-- An entry of `participant.groupEntitlementHistory`. -/
structure GroupHistoryEntry where
  groupId : Nat
  groupName : String
  entitlementName : String
  entitlementType : String
  count : Int
  distributedBy : Nat
  distributedAt : Nat
  deriving Repr, DecidableEq

/-- A participant document as consumed by the group-distribution route
(the revision of `src/routes/participants.js` starting at line 1285, whose
`entitlements` field is the fixed object of `src/models/Participant.js`). -/
structure GroupParticipant where
  participantId : String
  name : String
  isPresent : Bool
  entitlements : FixedEntitlements
  customEntitlements : List CustomEntitlement
  groupEntitlementHistory : List GroupHistoryEntry
  deriving Repr, DecidableEq

/-- A member reference of a group document (`participantId` plus audit data
the route does not read). -/
structure GroupMember where
  participantId : String
  deriving Repr, DecidableEq

/-- A group document (`src/models` Group schema). -/
structure Group where
  id : Nat
  name : String
  isActive : Bool
  members : List GroupMember
  deriving Repr, DecidableEq

/-- One entry of the `results` array of the group-distribution response. -/
structure GroupResultEntry where
  participantId : String
  name : String
  success : Bool
  deriving Repr, DecidableEq

/-- `Participant.findOne({ participantId })` on the group-route collection. -/
def findGroupParticipant (db : List GroupParticipant)
    (pid : String) : Option GroupParticipant :=
  db.find? (fun p => p.participantId == pid)

/-- `participant.save()` on the group-route collection. -/
def saveGroupParticipant (db : List GroupParticipant)
    (p : GroupParticipant) : List GroupParticipant :=
  db.map (fun q => if q.participantId == p.participantId then p else q)

/-- `participant.entitlements[type]` for the five boolean fixed keys;
`none` for any other string (the `beer` key is dispatched separately by the
route before this access pattern is reached). -/
def getFixedBool (f : FixedEntitlements) : String → Option BoolEntitlement
  | "breakfast" => some f.breakfast
  | "lunch" => some f.lunch
  | "eveningMeal" => some f.eveningMeal
  | "specialBeverage" => some f.specialBeverage
  | "specialMeal" => some f.specialMeal
  | _ => none

/-- Write back `participant.entitlements[type] = b` for a boolean fixed key. -/
def setFixedBool (f : FixedEntitlements) (t : String)
    (b : BoolEntitlement) : FixedEntitlements :=
  if t = "breakfast" then { f with breakfast := b }
  else if t = "lunch" then { f with lunch := b }
  else if t = "eveningMeal" then { f with eveningMeal := b }
  else if t = "specialBeverage" then { f with specialBeverage := b }
  else if t = "specialMeal" then { f with specialMeal := b }
  else f

/-- The `isCustomEntitlement` flag of the group-distribution route
(`src/routes/participants.js` lines 1665-1674): a name was supplied and the
type token is not one of the legacy fixed set.  An absent (or falsy) name is
modelled as `none`. -/
def isCustomEntitlementReq (entitlementName : Option String)
    (entitlementType : String) : Bool :=
  entitlementName.isSome && !(fixedEntitlementTypes.contains entitlementType)

/-- The group-scoped history entry pushed on every per-member success
(`src/routes/participants.js` lines 1787-1795). -/
def pushGroupHistory (group : Group) (entitlementName : Option String)
    (entitlementType : String) (isCustom : Bool) (c : Int) (userId now : Nat)
    (p : GroupParticipant) : GroupParticipant :=
  { p with groupEntitlementHistory := p.groupEntitlementHistory ++
      [{ groupId := group.id, groupName := group.name,
         entitlementName := entitlementName.getD entitlementType,
         entitlementType := if isCustom then "custom" else "fixed",
         count := c, distributedBy := userId, distributedAt := now }] }

/-- The countable mutation of the group route's custom branch
(`src/routes/participants.js` lines 1717-1721). -/
def grantCustomCountable (c : Int) (userId now : Nat)
    (e : CustomEntitlement) : CustomEntitlement :=
  { e with given := e.given + c,
           givenAt := e.givenAt ++ List.replicate c.toNat now,
           givenBy := e.givenBy ++ List.replicate c.toNat userId }

/-- The non-countable mutation of the group route's custom branch
(`src/routes/participants.js` lines 1730-1732). -/
def grantCustomNonCountable (userId now : Nat)
    (e : CustomEntitlement) : CustomEntitlement :=
  { e with given := e.maxCount,
           givenAt := e.givenAt ++ [now],
           givenBy := e.givenBy ++ [userId] }

/-- The accumulator threaded through the member loop of the group route: the
evolving collection plus the `results` and `errors` arrays. -/
structure GroupDistAcc where
  db : List GroupParticipant
  results : List GroupResultEntry
  errors : List String
  deriving Repr, DecidableEq

/-- Push a per-member error and continue with the next member. -/
def pushGroupError (acc : GroupDistAcc) (msg : String) : GroupDistAcc :=
  { acc with errors := acc.errors ++ [msg] }

/-- Record a per-member success: save the mutated participant and push a
result row (`src/routes/participants.js` lines 1785-1804). -/
def pushGroupSuccess (acc : GroupDistAcc) (pid : String)
    (p : GroupParticipant) : GroupDistAcc :=
  { acc with db := saveGroupParticipant acc.db p,
             results := acc.results ++
               [{ participantId := pid, name := p.name, success := true }] }

/-- One iteration of the member loop of `POST /:groupId/distribute`
(`src/routes/participants.js` lines 1676-1808).  Every failure appends one
error string and leaves the collection untouched; a `try`/`catch` inside the
loop guarantees the remaining members are still processed. -/
def processGroupMember (settings : List Setting) (group : Group)
    (entitlementType : String) (entitlementName : Option String) (count : Int)
    (userId now : Nat) (acc : GroupDistAcc)
    (member : GroupMember) : GroupDistAcc :=
  match findGroupParticipant acc.db member.participantId with
  | none => pushGroupError acc (member.participantId ++ ": Participant not found")
  | some participant =>
    if participant.isPresent = false then
      pushGroupError acc (member.participantId ++ ": Not marked present")
    else if isCustomEntitlementReq entitlementName entitlementType then
      let nameStr := entitlementName.getD ""
      match participant.customEntitlements.find?
          (fun e => jsToLower e.name == jsToLower nameStr) with
      | none => pushGroupError acc (member.participantId ++
          ": Does not have \"" ++ nameStr ++ "\" entitlement")
      | some ent =>
        if ent.isCountable then
          if ent.maxCount < ent.given + count then
            pushGroupError acc (member.participantId ++
              ": Limit exceeded for \"" ++ nameStr ++ "\"")
          else
            pushGroupSuccess acc member.participantId
              (pushGroupHistory group entitlementName entitlementType true
                count userId now
                { participant with customEntitlements :=
                    (updateFirst (fun e => jsToLower e.name == jsToLower nameStr)
                      (grantCustomCountable count userId now)
                      participant.customEntitlements) })
        else
          if ent.maxCount ≤ ent.given then
            pushGroupError acc (member.participantId ++ ": \"" ++ nameStr ++
              "\" already given")
          else
            pushGroupSuccess acc member.participantId
              (pushGroupHistory group entitlementName entitlementType true
                count userId now
                { participant with customEntitlements :=
                    (updateFirst (fun e => jsToLower e.name == jsToLower nameStr)
                      (grantCustomNonCountable userId now)
                      participant.customEntitlements) })
    else if entitlementType = "beer" then
      let beerLimit := match findSetting settings "beerLimit" with
        | some s => s.settingValue
        | none => 2
      if beerLimit < participant.entitlements.beer.given + count then
        pushGroupError acc (member.participantId ++ ": Beer limit exceeded")
      else
        pushGroupSuccess acc member.participantId
          (pushGroupHistory group entitlementName entitlementType false
            count userId now
            { participant with entitlements :=
                { participant.entitlements with beer :=
                    { participant.entitlements.beer with
                      given := participant.entitlements.beer.given + count,
                      givenAt := participant.entitlements.beer.givenAt ++
                        List.replicate count.toNat now,
                      givenBy := participant.entitlements.beer.givenBy ++
                        List.replicate count.toNat userId } } })
    else
      match getFixedBool participant.entitlements entitlementType with
      | none => pushGroupError acc (member.participantId ++
          ": Not eligible for " ++ entitlementType)
      | some fixedEnt =>
        if fixedEnt.given then
          pushGroupError acc (member.participantId ++ ": " ++
            entitlementType ++ " already given")
        else
          pushGroupSuccess acc member.participantId
            (pushGroupHistory group entitlementName entitlementType false
              count userId now
              { participant with entitlements :=
                  (setFixedBool participant.entitlements entitlementType
                    { given := true, givenAt := some now,
                      givenBy := some userId, undoneBy := none,
                      undoneAt := none }) })

/-- The responses of `POST /:groupId/distribute`: a 400 validation failure, a
404 for a missing or inactive group, or the completed fan-out, whose JSON
body always carries `success: true` together with the per-member `results`
and `errors` arrays. -/
inductive GroupDistResponse where
  | invalidRequest
  | groupNotFound
  | completed (success : Bool) (results : List GroupResultEntry)
      (errors : List String) (db : List GroupParticipant)
  deriving Repr, DecidableEq

/-- `Group.findById(groupId)`. -/
def findGroup (groups : List Group) (gid : Nat) : Option Group :=
  groups.find? (fun g => g.id == gid)

/-- The body of `POST /:groupId/distribute`
(`src/routes/participants.js` lines 1628-1829): validation, group lookup,
then the best-effort member loop; the completed response always reports
`success: true`. -/
def groupDistribute (settings : List Setting) (groups : List Group)
    (db : List GroupParticipant) (groupId : Nat) (entitlementType : String)
    (entitlementName : Option String) (count : Int)
    (userId now : Nat) : GroupDistResponse :=
  if entitlementType = "" ∨
      (entitlementName = none ∧
        fixedEntitlementTypes.contains entitlementType = false) then
    .invalidRequest
  else match findGroup groups groupId with
  | none => .groupNotFound
  | some group =>
    if group.isActive = false then .groupNotFound
    else
      let acc := group.members.foldl
        (processGroupMember settings group entitlementType entitlementName
          count userId now)
        { db := db, results := [], errors := [] }
      .completed true acc.results acc.errors acc.db

/-- The `results` array of a completed group-distribution response. -/
def resultsOf : GroupDistResponse → List GroupResultEntry
  | .completed _ r _ _ => r
  | _ => []

/-- The `errors` array of a completed group-distribution response. -/
def errorsOf : GroupDistResponse → List String
  | .completed _ _ e _ => e
  | _ => []

/-- The `success` flag of a completed group-distribution response. -/
def successOf : GroupDistResponse → Bool
  | .completed s _ _ _ => s
  | _ => false

/-- A fresh boolean fixed-entitlement subdocument (schema defaults). -/
def freshBoolEntitlement : BoolEntitlement :=
  { given := false, givenAt := none, givenBy := none, undoneBy := none,
    undoneAt := none }

/-- A fresh fixed-entitlements object (schema defaults). -/
def freshFixedEntitlements : FixedEntitlements :=
  { breakfast := freshBoolEntitlement, lunch := freshBoolEntitlement,
    beer := { given := 0, givenAt := [], givenBy := [], undoneBy := none,
              undoneAt := none, lastUndoneCount := 0 },
    eveningMeal := freshBoolEntitlement,
    specialBeverage := freshBoolEntitlement,
    specialMeal := freshBoolEntitlement }

/-- Concrete group-route participant fixture used to evaluate witnesses. -/
def sampleGroupParticipant (pid nm : String)
    (isPresent : Bool) : GroupParticipant :=
  { participantId := pid, name := nm, isPresent := isPresent,
    entitlements := freshFixedEntitlements, customEntitlements := [],
    groupEntitlementHistory := [] }

/-- Concrete active group fixture used to evaluate witnesses. -/
def sampleGroup (ms : List String) : Group :=
  { id := 1, name := "G", isActive := true,
    members := ms.map (fun s => { participantId := s }) }

/-- All entitlement instances of a participant satisfy the ledger
invariant. -/
def ledgerInvariant (settings : List Setting) (p : Participant) : Prop :=
  ∀ e ∈ p.entitlements, entitlementInvariant settings e

/-- All entitlement instances of a participant have well-formed caps. -/
def capsWellFormed (settings : List Setting) (p : Participant) : Prop :=
  ∀ e ∈ p.entitlements, capWellFormed settings e

/-- Every participant of the collection satisfies the ledger invariant and
has well-formed caps. -/
def dbWellFormed (settings : List Setting) (db : List Participant) : Prop :=
  ∀ p ∈ db, ledgerInvariant settings p ∧ capsWellFormed settings p

instance (settings : List Setting) (e : EntitlementInstance) :
    Decidable (entitlementInvariant settings e) := by
  unfold entitlementInvariant
  infer_instance

instance (settings : List Setting) (e : EntitlementInstance) :
    Decidable (capWellFormed settings e) := by
  unfold capWellFormed
  infer_instance

instance (settings : List Setting) (p : Participant) :
    Decidable (ledgerInvariant settings p) := by
  unfold ledgerInvariant
  infer_instance

instance (settings : List Setting) (p : Participant) :
    Decidable (capsWellFormed settings p) := by
  unfold capsWellFormed
  infer_instance

instance (settings : List Setting) (db : List Participant) :
    Decidable (dbWellFormed settings db) := by
  unfold dbWellFormed
  infer_instance

instance (op : LedgerOp) : Decidable (opCountPositive op) := by
  cases op with
  | distribute n c u t => exact inferInstanceAs (Decidable (1 ≤ c))
  | undo n c u t => exact inferInstanceAs (Decidable (1 ≤ c))

/-- Concrete entitlement-instance fixture used to evaluate witnesses. -/
def sampleInstance (name : String) (isCountable : Bool) (maxCount given : Int)
    (givenAt givenBy : List Nat) : EntitlementInstance :=
  { templateId := 0, name := name, description := "", category := "other",
    isCountable := isCountable, maxCount := maxCount, given := given,
    givenAt := givenAt, givenBy := givenBy, addedBy := none, addedAt := 0,
    undoneBy := none, undoneAt := none, lastUndoneCount := 0 }

/-- Concrete participant fixture used to evaluate witnesses. -/
def sampleParticipant (pid : String) (isPresent : Bool)
    (ents : List EntitlementInstance) : Participant :=
  { participantId := pid, name := "Alex", isPlayer := false,
    isPresent := isPresent, entitlements := ents, customEntitlements := [],
    entitlementHistory := [] }

theorem find?_updateFirst_self {α : Type _} {p : α → Bool} {f : α → α}
    {l : List α} {a : α} (h : l.find? p = some a) (hf : p (f a) = true) :
    (updateFirst p f l).find? p = some (f a) := by
  induction l with
  | nil => simp [List.find?] at h
  | cons x xs ih =>
    cases hx : p x with
    | true =>
      simp only [List.find?, hx] at h
      cases h
      simp [updateFirst, hx, List.find?, hf]
    | false =>
      simp only [List.find?, hx] at h
      simp [updateFirst, hx, List.find?, ih h]

theorem mem_updateFirst_of_find? {α : Type _} {p : α → Bool} {f : α → α}
    {l : List α} {a y : α} (h : l.find? p = some a)
    (hy : y ∈ updateFirst p f l) : y ∈ l ∨ y = f a := by
  induction l with
  | nil => simp [List.find?] at h
  | cons x xs ih =>
    cases hx : p x with
    | true =>
      simp only [List.find?, hx] at h
      cases h
      simp only [updateFirst, hx, if_true] at hy
      rcases List.mem_cons.mp hy with h1 | h1
      · exact Or.inr h1
      · exact Or.inl (List.mem_cons_of_mem _ h1)
    | false =>
      simp only [List.find?, hx] at h
      simp only [updateFirst, hx, Bool.false_eq_true, if_false] at hy
      rcases List.mem_cons.mp hy with h1 | h1
      · exact Or.inl (h1 ▸ List.mem_cons_self _ _)
      · rcases ih h h1 with h2 | h2
        · exact Or.inl (List.mem_cons_of_mem _ h2)
        · exact Or.inr h2

theorem distribute_countable_ok {settings : List Setting}
    {db : List Participant} {pid n : String} {participant : Participant}
    {e : EntitlementInstance} {c : Int} (u t : Nat)
    (hn : n ≠ "") (hp : findParticipant db pid = some participant)
    (hpr : participant.isPresent = true)
    (he : participant.entitlements.find? (nameMatches n) = some e)
    (hc : e.isCountable = true)
    (hle : e.given + c ≤ getEntitlementLimit settings e.name e.maxCount) :
    distributeEntitlement settings db pid n c u t =
      .ok (recordDistribution participant e.name c u t
        (updateFirst (nameMatches n) (grantCountable c u t)
          participant.entitlements)) := by
  unfold distributeEntitlement
  rw [if_neg hn, hp]
  simp only [hpr, Bool.true_eq_false, if_false, he, hc, if_true]
  rw [if_neg (not_lt.mpr hle)]

theorem distribute_countable_err {settings : List Setting}
    {db : List Participant} {pid n : String} {participant : Participant}
    {e : EntitlementInstance} {c : Int} (u t : Nat)
    (hn : n ≠ "") (hp : findParticipant db pid = some participant)
    (hpr : participant.isPresent = true)
    (he : participant.entitlements.find? (nameMatches n) = some e)
    (hc : e.isCountable = true)
    (hgt : getEntitlementLimit settings e.name e.maxCount < e.given + c) :
    distributeEntitlement settings db pid n c u t =
      .error .entitlementLimitExceeded := by
  unfold distributeEntitlement
  rw [if_neg hn, hp]
  simp only [hpr, Bool.true_eq_false, if_false, he, hc, if_true]
  rw [if_pos hgt]

theorem distribute_noncountable_ok {settings : List Setting}
    {db : List Participant} {pid n : String} {participant : Participant}
    {e : EntitlementInstance} {c : Int} (u t : Nat)
    (hn : n ≠ "") (hp : findParticipant db pid = some participant)
    (hpr : participant.isPresent = true)
    (he : participant.entitlements.find? (nameMatches n) = some e)
    (hc : e.isCountable = false)
    (hlt : e.given < getEntitlementLimit settings e.name e.maxCount) :
    distributeEntitlement settings db pid n c u t =
      .ok (recordDistribution participant e.name c u t
        (updateFirst (nameMatches n) (grantNonCountable settings u t)
          participant.entitlements)) := by
  unfold distributeEntitlement
  rw [if_neg hn, hp]
  simp only [hpr, Bool.true_eq_false, if_false, he, hc, Bool.false_eq_true]
  rw [if_neg (not_le.mpr hlt)]

theorem distribute_noncountable_err {settings : List Setting}
    {db : List Participant} {pid n : String} {participant : Participant}
    {e : EntitlementInstance} {c : Int} (u t : Nat)
    (hn : n ≠ "") (hp : findParticipant db pid = some participant)
    (hpr : participant.isPresent = true)
    (he : participant.entitlements.find? (nameMatches n) = some e)
    (hc : e.isCountable = false)
    (hge : getEntitlementLimit settings e.name e.maxCount ≤ e.given) :
    distributeEntitlement settings db pid n c u t =
      .error .entitlementAlreadyGiven := by
  unfold distributeEntitlement
  rw [if_neg hn, hp]
  simp only [hpr, Bool.true_eq_false, if_false, he, hc, Bool.false_eq_true]
  rw [if_pos hge]

theorem undo_found_zero {db : List Participant} {pid n : String}
    {participant : Participant} {e : EntitlementInstance} {c : Int}
    (u t : Nat) (hn : n ≠ "") (hp : findParticipant db pid = some participant)
    (he : participant.entitlements.find? (nameMatches n) = some e)
    (hz : e.given = 0) :
    undoEntitlement db pid n c u t = .error .nothingToUndo := by
  unfold undoEntitlement
  rw [if_neg hn, hp]
  simp only [he]
  rw [if_pos hz]

theorem undo_found_pos {db : List Participant} {pid n : String}
    {participant : Participant} {e : EntitlementInstance} {c : Int}
    (u t : Nat) (hn : n ≠ "") (hp : findParticipant db pid = some participant)
    (he : participant.entitlements.find? (nameMatches n) = some e)
    (hz : e.given ≠ 0) :
    undoEntitlement db pid n c u t =
      .ok { participant with
            entitlements := updateFirst (nameMatches n) (applyUndo c u t)
              participant.entitlements,
            entitlementHistory := participant.entitlementHistory ++
              [{ entitlementName := e.name, action := "undone",
                 count := min c e.given, performedAt := t,
                 performedBy := u }] } := by
  unfold undoEntitlement
  rw [if_neg hn, hp]
  simp only [he]
  rw [if_neg hz]

theorem findParticipant_eq_pid {db : List Participant} {pid : String}
    {p : Participant} (h : findParticipant db pid = some p) :
    p.participantId = pid := by
  have := List.find?_some h
  simpa using this

theorem findParticipant_saveParticipant {db : List Participant} {pid : String}
    {p q : Participant} (h : findParticipant db pid = some p)
    (hq : q.participantId = p.participantId) :
    findParticipant (saveParticipant db q) pid = some q := by
  have hpid : p.participantId = pid := findParticipant_eq_pid h
  induction db with
  | nil => simp [findParticipant] at h
  | cons r rest ih =>
    unfold findParticipant at h ⊢
    by_cases hr : r.participantId = pid
    · rw [List.find?_cons_of_pos _ (by simp [hr])] at h
      cases h
      simp only [saveParticipant, List.map_cons]
      rw [if_pos (by simp [hq])]
      rw [List.find?_cons_of_pos _ (by simp [hq, hpid])]
    · rw [List.find?_cons_of_neg _ (by simp [hr])] at h
      simp only [saveParticipant, List.map_cons]
      rw [if_neg (by simp [hq, hpid, hr])]
      rw [List.find?_cons_of_neg _ (by simp [hr])]
      exact ih h

theorem grantCountable_name (c : Int) (u t : Nat) (e : EntitlementInstance) :
    (grantCountable c u t e).name = e.name := rfl

theorem grantNonCountable_name (settings : List Setting) (u t : Nat)
    (e : EntitlementInstance) :
    (grantNonCountable settings u t e).name = e.name := rfl

theorem applyUndo_name (c : Int) (u t : Nat) (e : EntitlementInstance) :
    (applyUndo c u t e).name = e.name := by
  unfold applyUndo
  split_ifs <;> rfl

theorem nameMatches_congr {n : String} {e f : EntitlementInstance}
    (hname : f.name = e.name) (h : nameMatches n e = true) :
    nameMatches n f = true := by
  unfold nameMatches at h ⊢
  rw [hname]
  exact h

theorem nameMatches_of_find? {n : String} {l : List EntitlementInstance}
    {e : EntitlementInstance} (h : l.find? (nameMatches n) = some e) :
    nameMatches n e = true :=
  List.find?_some h

theorem recordDistribution_participantId (p : Participant) (nm : String)
    (c : Int) (u t : Nat) (ents : List EntitlementInstance) :
    (recordDistribution p nm c u t ents).participantId = p.participantId := rfl

/-- C4: the effective cap used by distribution equals the global setting's
value exactly when the entitlement name, matched case-insensitively, maps to
a known setting key (beer to beerLimit, soft drink / soft drinks to
softDrinkLimit) and a setting row with that key exists; otherwise it equals
the instance's stored maxCount unchanged.  In particular, with a beerLimit
setting of value 3 present, the cap resolved for any Beer distribution is 3,
regardless of the stored maxCount. -/
theorem claim_c4_effective_cap (settings : List Setting) (name : String)
    (m : Int) :
    ((getSettingKeyForEntitlement name = some "beerLimit" ↔
        jsToLower name = "beer") ∧
     (getSettingKeyForEntitlement name = some "softDrinkLimit" ↔
        (jsToLower name = "soft drinks" ∨ jsToLower name = "soft drink")) ∧
     (∀ key, getSettingKeyForEntitlement name = some key →
        key = "beerLimit" ∨ key = "softDrinkLimit")) ∧
    (∀ key s, getSettingKeyForEntitlement name = some key →
       findSetting settings key = some s →
       getEntitlementLimit settings name m = s.settingValue) ∧
    (∀ key, getSettingKeyForEntitlement name = some key →
       findSetting settings key = none →
       getEntitlementLimit settings name m = m) ∧
    (getSettingKeyForEntitlement name = none →
       getEntitlementLimit settings name m = m) ∧
    (∀ s, findSetting settings "beerLimit" = some s → s.settingValue = 3 →
       jsToLower name = "beer" → getEntitlementLimit settings name m = 3) := by
  have hkey : ∀ key, getSettingKeyForEntitlement name = some key →
      key = "beerLimit" ∨ key = "softDrinkLimit" := by
    intro key h
    unfold getSettingKeyForEntitlement at h
    split_ifs at h with h1 h2 h3 <;> simp_all
  refine ⟨⟨?_, ?_, hkey⟩, ?_, ?_, ?_, ?_⟩
  · unfold getSettingKeyForEntitlement
    split_ifs with h1 h2 h3 <;> simp_all
  · unfold getSettingKeyForEntitlement
    split_ifs with h1 h2 h3 <;> simp_all
  · intro key s hk hs
    unfold getEntitlementLimit
    rw [hk]
    simp only [hs]
  · intro key hk hs
    unfold getEntitlementLimit
    rw [hk]
    simp only [hs]
  · intro hk
    unfold getEntitlementLimit
    rw [hk]
  · intro s hs h3 hb
    have hk : getSettingKeyForEntitlement name = some "beerLimit" := by
      unfold getSettingKeyForEntitlement
      rw [if_pos hb]
    unfold getEntitlementLimit
    rw [hk]
    simp only [hs, h3]

/-- Witness for C4: with beerLimit = 3 stored, the cap for the name Beer with
stored maxCount 2 resolves to 3; with no matching setting key, the name
Coffee keeps its stored maxCount. -/
theorem claim_c4_effective_cap_witness :
    getEntitlementLimit [{ settingName := "beerLimit", settingValue := 3 }]
      "Beer" 2 = 3 ∧
    getEntitlementLimit [{ settingName := "beerLimit", settingValue := 3 }]
      "Coffee" 7 = 7 := by
  constructor
  · exact (claim_c4_effective_cap
      [{ settingName := "beerLimit", settingValue := 3 }] "Beer" 2).2.2.2.2
      { settingName := "beerLimit", settingValue := 3 }
      (by decide) (by decide) (by decide)
  · exact (claim_c4_effective_cap
      [{ settingName := "beerLimit", settingValue := 3 }] "Coffee" 7).2.2.2.1
      (by decide)

/-- C7: a single-participant distribute request against an existing
participant whose isPresent flag is false is rejected with the distinct
not-present error, for every requested count and every caller identity, and
the collection is unchanged; the presence check follows the
participant-exists check (a missing participant yields the distinct
not-found error) and precedes the entitlement-instance lookup (the
not-present rejection needs no hypothesis about the instance). -/
theorem claim_c7_not_present_rejection (settings : List Setting)
    (db : List Participant) (pid n : String) (c : Int) (u t : Nat)
    (hn : n ≠ "") :
    (findParticipant db pid = none →
      distributeEntitlement settings db pid n c u t =
        .error .participantNotFound) ∧
    (∀ participant, findParticipant db pid = some participant →
      participant.isPresent = false →
      distributeEntitlement settings db pid n c u t =
        .error .participantNotPresent ∧
      distributeDb settings db pid n c u t = db) ∧
    (ApiError.participantNotPresent ≠ ApiError.participantNotFound ∧
     ApiError.participantNotPresent ≠ ApiError.entitlementNotFound) := by
  refine ⟨?_, ?_, by decide, by decide⟩
  · intro h
    unfold distributeEntitlement
    rw [if_neg hn, h]
  · intro participant hp hpr
    have hrej : distributeEntitlement settings db pid n c u t =
        .error .participantNotPresent := by
      unfold distributeEntitlement
      rw [if_neg hn, hp]
      simp only [hpr, if_true]
    exact ⟨hrej, by unfold distributeDb; rw [hrej]⟩

/-- Witness for C7: an absent participant with a Lunch instance attached is
rejected with the not-present error and the collection is unchanged. -/
theorem claim_c7_not_present_rejection_witness :
    distributeEntitlement []
      [sampleParticipant "P1" false [sampleInstance "Lunch" false 1 0 [] []]]
      "P1" "Lunch" 1 5 9 = .error .participantNotPresent ∧
    distributeDb []
      [sampleParticipant "P1" false [sampleInstance "Lunch" false 1 0 [] []]]
      "P1" "Lunch" 1 5 9 =
      [sampleParticipant "P1" false [sampleInstance "Lunch" false 1 0 [] []]] := by
  exact (claim_c7_not_present_rejection []
    [sampleParticipant "P1" false [sampleInstance "Lunch" false 1 0 [] []]]
    "P1" "Lunch" 1 5 9 (by decide)).2.1
    (sampleParticipant "P1" false [sampleInstance "Lunch" false 1 0 [] []])
    (by decide) (by decide)

/-- C2: on an existing, present participant holding a countable instance, a
distribute request with a positive count succeeds exactly when
given + count does not exceed the effective cap; on success given grows by
exactly count and count new pairs, all carrying the one request timestamp
and the one request grantor, are appended to the tails of givenAt and
givenBy (together with a distributed history entry); on rejection the
collection is unchanged. -/
theorem claim_c2_countable_distribute (settings : List Setting)
    (db : List Participant) (pid n : String) (c : Int) (u t : Nat)
    (participant : Participant) (e : EntitlementInstance)
    (hn : n ≠ "") (hp : findParticipant db pid = some participant)
    (hpr : participant.isPresent = true)
    (he : participant.entitlements.find? (nameMatches n) = some e)
    (hc : e.isCountable = true) (hcpos : 1 ≤ c) :
    ((∃ p2, distributeEntitlement settings db pid n c u t = .ok p2) ↔
      e.given + c ≤ effectiveCap settings e) ∧
    (e.given + c ≤ effectiveCap settings e →
      ∃ p2 e2, distributeEntitlement settings db pid n c u t = .ok p2 ∧
        p2.entitlements.find? (nameMatches n) = some e2 ∧
        e2.given = e.given + c ∧
        e2.givenAt = e.givenAt ++ List.replicate c.toNat t ∧
        e2.givenBy = e.givenBy ++ List.replicate c.toNat u ∧
        (c.toNat : Int) = c ∧
        p2.entitlementHistory = participant.entitlementHistory ++
          [{ entitlementName := e.name, action := "distributed", count := c,
             performedAt := t, performedBy := u }]) ∧
    (effectiveCap settings e < e.given + c →
      distributeEntitlement settings db pid n c u t =
        .error .entitlementLimitExceeded ∧
      distributeDb settings db pid n c u t = db) := by
  unfold effectiveCap
  have hname : nameMatches n (grantCountable c u t e) = true :=
    nameMatches_congr (grantCountable_name c u t e) (nameMatches_of_find? he)
  have hsucc : ∀ hle : e.given + c ≤
      getEntitlementLimit settings e.name e.maxCount,
      ∃ p2 e2, distributeEntitlement settings db pid n c u t = .ok p2 ∧
        p2.entitlements.find? (nameMatches n) = some e2 ∧
        e2.given = e.given + c ∧
        e2.givenAt = e.givenAt ++ List.replicate c.toNat t ∧
        e2.givenBy = e.givenBy ++ List.replicate c.toNat u ∧
        (c.toNat : Int) = c ∧
        p2.entitlementHistory = participant.entitlementHistory ++
          [{ entitlementName := e.name, action := "distributed", count := c,
             performedAt := t, performedBy := u }] := by
    intro hle
    refine ⟨_, grantCountable c u t e,
      distribute_countable_ok u t hn hp hpr he hc hle, ?_, ?_, ?_, ?_, ?_, ?_⟩
    · exact find?_updateFirst_self he hname
    · rfl
    · rfl
    · rfl
    · omega
    · rfl
  refine ⟨⟨?_, ?_⟩, hsucc, ?_⟩
  · rintro ⟨p2, hok⟩
    by_contra hgt
    push_neg at hgt
    rw [distribute_countable_err u t hn hp hpr he hc hgt] at hok
    exact Except.noConfusion hok
  · intro hle
    obtain ⟨p2, e2, hok, -⟩ := hsucc hle
    exact ⟨p2, hok⟩
  · intro hgt
    have herr := distribute_countable_err u t hn hp hpr he hc hgt
    refine ⟨herr, ?_⟩
    unfold distributeDb
    rw [herr]

/-- Witness for C2: Scenario A.  A present participant with countable Beer
cap 2 and given 0: a count-1 distribution succeeds (appends one pair), and a
further count-2 distribution is rejected leaving the collection unchanged. -/
theorem claim_c2_countable_distribute_witness :
    ((0 : Int) + 1 ≤ effectiveCap []
        (sampleInstance "Beer" true 2 0 [] []) ∧
      (∃ p2 e2, distributeEntitlement []
          [sampleParticipant "P1" true [sampleInstance "Beer" true 2 0 [] []]]
          "P1" "Beer" 1 5 9 = .ok p2 ∧
        p2.entitlements.find? (nameMatches "Beer") = some e2 ∧
        e2.given = (0 : Int) + 1 ∧
        e2.givenAt = [] ++ List.replicate (1 : Int).toNat 9 ∧
        e2.givenBy = [] ++ List.replicate (1 : Int).toNat 5 ∧
        (((1 : Int).toNat : Int) = 1) ∧
        p2.entitlementHistory = [] ++
          [{ entitlementName := "Beer", action := "distributed", count := 1,
             performedAt := 9, performedBy := 5 }])) ∧
    (distributeEntitlement []
        [sampleParticipant "P1" true [sampleInstance "Beer" true 1 1 [9] [5]]]
        "P1" "Beer" 2 5 9 = .error .entitlementLimitExceeded ∧
      distributeDb []
        [sampleParticipant "P1" true [sampleInstance "Beer" true 1 1 [9] [5]]]
        "P1" "Beer" 2 5 9 =
        [sampleParticipant "P1" true [sampleInstance "Beer" true 1 1 [9] [5]]]) := by
  constructor
  · constructor
    · decide
    · exact (claim_c2_countable_distribute []
        [sampleParticipant "P1" true [sampleInstance "Beer" true 2 0 [] []]]
        "P1" "Beer" 1 5 9
        (sampleParticipant "P1" true [sampleInstance "Beer" true 2 0 [] []])
        (sampleInstance "Beer" true 2 0 [] [])
        (by decide) (by decide) (by decide) (by decide) (by decide)
        (by decide)).2.1 (by decide)
  · exact (claim_c2_countable_distribute []
      [sampleParticipant "P1" true [sampleInstance "Beer" true 1 1 [9] [5]]]
      "P1" "Beer" 2 5 9
      (sampleParticipant "P1" true [sampleInstance "Beer" true 1 1 [9] [5]])
      (sampleInstance "Beer" true 1 1 [9] [5])
      (by decide) (by decide) (by decide) (by decide) (by decide)
      (by decide)).2.2 (by decide)

/-- C3: on an existing, present participant holding a non-countable
instance, a distribute request succeeds exactly when given is strictly below
the effective cap; on success given is set to the effective cap and exactly
one pair is appended to givenAt / givenBy; while given is at or above the
effective cap (in particular immediately after a success) any further
distribute request is rejected with the already-given error and changes
nothing. -/
theorem claim_c3_noncountable_distribute (settings : List Setting)
    (db : List Participant) (pid n : String) (c : Int) (u t : Nat)
    (participant : Participant) (e : EntitlementInstance)
    (hn : n ≠ "") (hp : findParticipant db pid = some participant)
    (hpr : participant.isPresent = true)
    (he : participant.entitlements.find? (nameMatches n) = some e)
    (hc : e.isCountable = false) :
    ((∃ p2, distributeEntitlement settings db pid n c u t = .ok p2) ↔
      e.given < effectiveCap settings e) ∧
    (e.given < effectiveCap settings e →
      ∃ p2 e2, distributeEntitlement settings db pid n c u t = .ok p2 ∧
        p2.entitlements.find? (nameMatches n) = some e2 ∧
        e2.given = effectiveCap settings e ∧
        e2.givenAt = e.givenAt ++ [t] ∧
        e2.givenBy = e.givenBy ++ [u] ∧
        (∀ c2 u2 t2, distributeEntitlement settings
            (distributeDb settings db pid n c u t) pid n c2 u2 t2 =
          .error .entitlementAlreadyGiven)) ∧
    (effectiveCap settings e ≤ e.given →
      distributeEntitlement settings db pid n c u t =
        .error .entitlementAlreadyGiven ∧
      distributeDb settings db pid n c u t = db) := by
  unfold effectiveCap
  have hname : nameMatches n (grantNonCountable settings u t e) = true :=
    nameMatches_congr (grantNonCountable_name settings u t e)
      (nameMatches_of_find? he)
  have hsucc : ∀ hlt : e.given <
      getEntitlementLimit settings e.name e.maxCount,
      distributeEntitlement settings db pid n c u t =
        .ok (recordDistribution participant e.name c u t
          (updateFirst (nameMatches n) (grantNonCountable settings u t)
            participant.entitlements)) :=
    fun hlt => distribute_noncountable_ok u t hn hp hpr he hc hlt
  refine ⟨⟨?_, ?_⟩, ?_, ?_⟩
  · rintro ⟨p2, hok⟩
    by_contra hge
    push_neg at hge
    rw [distribute_noncountable_err u t hn hp hpr he hc hge] at hok
    exact Except.noConfusion hok
  · intro hlt
    exact ⟨_, hsucc hlt⟩
  · intro hlt
    refine ⟨_, grantNonCountable settings u t e, hsucc hlt,
      find?_updateFirst_self he hname, rfl, rfl, rfl, ?_⟩
    intro c2 u2 t2
    have hdb2 : distributeDb settings db pid n c u t =
        saveParticipant db (recordDistribution participant e.name c u t
          (updateFirst (nameMatches n) (grantNonCountable settings u t)
            participant.entitlements)) := by
      unfold distributeDb
      rw [hsucc hlt]
    rw [hdb2]
    have hp2 : findParticipant (saveParticipant db
        (recordDistribution participant e.name c u t
          (updateFirst (nameMatches n) (grantNonCountable settings u t)
            participant.entitlements))) pid =
        some (recordDistribution participant e.name c u t
          (updateFirst (nameMatches n) (grantNonCountable settings u t)
            participant.entitlements)) :=
      findParticipant_saveParticipant hp rfl
    exact distribute_noncountable_err u2 t2 hn hp2 hpr
      (find?_updateFirst_self he hname) hc (le_refl _)
  · intro hge
    have herr : distributeEntitlement settings db pid n c u t =
        .error .entitlementAlreadyGiven :=
      distribute_noncountable_err u t hn hp hpr he hc hge
    refine ⟨herr, ?_⟩
    unfold distributeDb
    rw [herr]

/-- Witness for C3: Scenario B.  A present participant with non-countable
Lunch cap 1 and given 0: one distribution succeeds and sets given to the
cap, and the immediately repeated distribution is rejected with the
already-given error. -/
theorem claim_c3_noncountable_distribute_witness :
    ((0 : Int) < effectiveCap [] (sampleInstance "Lunch" false 1 0 [] []) ∧
      (∃ p2 e2, distributeEntitlement []
          [sampleParticipant "P1" true [sampleInstance "Lunch" false 1 0 [] []]]
          "P1" "Lunch" 1 5 9 = .ok p2 ∧
        p2.entitlements.find? (nameMatches "Lunch") = some e2 ∧
        e2.given = effectiveCap [] (sampleInstance "Lunch" false 1 0 [] []) ∧
        e2.givenAt = [] ++ [9] ∧
        e2.givenBy = [] ++ [5] ∧
        (∀ c2 u2 t2, distributeEntitlement []
            (distributeDb []
              [sampleParticipant "P1" true
                [sampleInstance "Lunch" false 1 0 [] []]]
              "P1" "Lunch" 1 5 9) "P1" "Lunch" c2 u2 t2 =
          .error .entitlementAlreadyGiven))) := by
  constructor
  · decide
  · exact (claim_c3_noncountable_distribute []
      [sampleParticipant "P1" true [sampleInstance "Lunch" false 1 0 [] []]]
      "P1" "Lunch" 1 5 9
      (sampleParticipant "P1" true [sampleInstance "Lunch" false 1 0 [] []])
      (sampleInstance "Lunch" false 1 0 [] [])
      (by decide) (by decide) (by decide) (by decide) (by decide)).2.1
      (by decide)

/-- C6: an undo request naming an instance that exists on the participant is
rejected as nothing-to-undo, with the collection unchanged, when given is 0;
otherwise it succeeds, the undone amount is the clamp min(requested, given),
the instance records undoneBy / undoneAt / lastUndoneCount, an undone
history entry is appended, a countable instance loses exactly the clamped
amount from given and the tails of its arrays, and a non-countable instance
is fully reset regardless of the requested count. -/
theorem claim_c6_undo_semantics (db : List Participant) (pid n : String)
    (c : Int) (u t : Nat) (participant : Participant)
    (e : EntitlementInstance)
    (hn : n ≠ "") (hp : findParticipant db pid = some participant)
    (he : participant.entitlements.find? (nameMatches n) = some e) :
    (e.given = 0 →
      undoEntitlement db pid n c u t = .error .nothingToUndo ∧
      undoDb db pid n c u t = db) ∧
    (e.given ≠ 0 →
      ∃ p2 e2, undoEntitlement db pid n c u t = .ok p2 ∧
        p2.entitlements.find? (nameMatches n) = some e2 ∧
        e2.lastUndoneCount = min c e.given ∧
        e2.undoneBy = some u ∧
        e2.undoneAt = some t ∧
        (e.isCountable = true → e2.given = e.given - min c e.given ∧
          e2.givenAt = spliceLast e.givenAt (min c e.given) ∧
          e2.givenBy = spliceLast e.givenBy (min c e.given)) ∧
        (e.isCountable = false →
          e2.given = 0 ∧ e2.givenAt = [] ∧ e2.givenBy = []) ∧
        p2.entitlementHistory = participant.entitlementHistory ++
          [{ entitlementName := e.name, action := "undone",
             count := min c e.given, performedAt := t,
             performedBy := u }]) := by
  constructor
  · intro hz
    have herr : undoEntitlement db pid n c u t = .error .nothingToUndo :=
      undo_found_zero u t hn hp he hz
    refine ⟨herr, ?_⟩
    unfold undoDb
    rw [herr]
  · intro hz
    have hok := @undo_found_pos db pid n participant e c u t hn hp he hz
    have hname : nameMatches n (applyUndo c u t e) = true :=
      nameMatches_congr (applyUndo_name c u t e) (nameMatches_of_find? he)
    refine ⟨_, applyUndo c u t e, hok, find?_updateFirst_self he hname,
      ?_, ?_, ?_, ?_, ?_, rfl⟩
    · unfold applyUndo
      split_ifs <;> rfl
    · unfold applyUndo
      split_ifs <;> rfl
    · unfold applyUndo
      split_ifs <;> rfl
    · intro hC
      unfold applyUndo
      rw [if_pos hC]
      exact ⟨rfl, rfl, rfl⟩
    · intro hC
      unfold applyUndo
      rw [if_neg (by simp [hC])]
      exact ⟨rfl, rfl, rfl⟩

/-- Witness for C6: Scenario C plus the rejection case.  Undoing Lunch
(non-countable, given 1) resets the instance and records the undo
bookkeeping; undoing a fresh Beer instance (given 0) is rejected with
nothing-to-undo and the collection is unchanged. -/
theorem claim_c6_undo_semantics_witness :
    (∃ p2 e2, undoEntitlement
        [sampleParticipant "P1" true [sampleInstance "Lunch" false 1 1 [9] [5]]]
        "P1" "Lunch" 1 6 11 = .ok p2 ∧
      p2.entitlements.find? (nameMatches "Lunch") = some e2 ∧
      e2.lastUndoneCount = min 1 (1 : Int) ∧
      e2.undoneBy = some 6 ∧
      e2.undoneAt = some 11 ∧
      ((sampleInstance "Lunch" false 1 1 [9] [5]).isCountable = true →
        e2.given = (1 : Int) - min 1 (1 : Int) ∧
        e2.givenAt = spliceLast [9] (min 1 (1 : Int)) ∧
        e2.givenBy = spliceLast [5] (min 1 (1 : Int))) ∧
      ((sampleInstance "Lunch" false 1 1 [9] [5]).isCountable = false →
        e2.given = 0 ∧ e2.givenAt = [] ∧ e2.givenBy = []) ∧
      p2.entitlementHistory = [] ++
        [{ entitlementName := "Lunch", action := "undone",
           count := min 1 (1 : Int), performedAt := 11,
           performedBy := 6 }]) ∧
    (undoEntitlement
        [sampleParticipant "P2" true [sampleInstance "Beer" true 2 0 [] []]]
        "P2" "Beer" 1 6 11 = .error .nothingToUndo ∧
      undoDb
        [sampleParticipant "P2" true [sampleInstance "Beer" true 2 0 [] []]]
        "P2" "Beer" 1 6 11 =
        [sampleParticipant "P2" true [sampleInstance "Beer" true 2 0 [] []]]) := by
  constructor
  · exact (claim_c6_undo_semantics
      [sampleParticipant "P1" true [sampleInstance "Lunch" false 1 1 [9] [5]]]
      "P1" "Lunch" 1 6 11
      (sampleParticipant "P1" true [sampleInstance "Lunch" false 1 1 [9] [5]])
      (sampleInstance "Lunch" false 1 1 [9] [5])
      (by decide) (by decide) (by decide)).2 (by decide)
  · exact (claim_c6_undo_semantics
      [sampleParticipant "P2" true [sampleInstance "Beer" true 2 0 [] []]]
      "P2" "Beer" 1 6 11
      (sampleParticipant "P2" true [sampleInstance "Beer" true 2 0 [] []])
      (sampleInstance "Beer" true 2 0 [] [])
      (by decide) (by decide) (by decide)).1 (by decide)

/-- C10: on a countable instance of an existing, present participant, a
requested count of zero or below is not rejected as invalid: whenever
given + count fits under the effective cap the request succeeds, given
changes by exactly that amount (decreasing for a negative count), no pairs
are appended to givenAt / givenBy, and a distributed history entry carrying
that count is appended — so a negative accepted count makes given diverge
from the length of givenAt. -/
theorem claim_c10_nonpositive_count (settings : List Setting)
    (db : List Participant) (pid n : String) (c : Int) (u t : Nat)
    (participant : Participant) (e : EntitlementInstance)
    (hn : n ≠ "") (hp : findParticipant db pid = some participant)
    (hpr : participant.isPresent = true)
    (he : participant.entitlements.find? (nameMatches n) = some e)
    (hc : e.isCountable = true) (hcle : c ≤ 0)
    (hle : e.given + c ≤ effectiveCap settings e) :
    ∃ p2 e2, distributeEntitlement settings db pid n c u t = .ok p2 ∧
      p2.entitlements.find? (nameMatches n) = some e2 ∧
      e2.given = e.given + c ∧
      e2.givenAt = e.givenAt ∧
      e2.givenBy = e.givenBy ∧
      p2.entitlementHistory = participant.entitlementHistory ++
        [{ entitlementName := e.name, action := "distributed", count := c,
           performedAt := t, performedBy := u }] ∧
      (c < 0 → e.given = (e.givenAt.length : Int) →
        e2.given ≠ (e2.givenAt.length : Int)) := by
  unfold effectiveCap at hle
  have hname : nameMatches n (grantCountable c u t e) = true :=
    nameMatches_congr (grantCountable_name c u t e) (nameMatches_of_find? he)
  have htn : c.toNat = 0 := Int.toNat_of_nonpos hcle
  refine ⟨_, grantCountable c u t e,
    distribute_countable_ok u t hn hp hpr he hc hle,
    find?_updateFirst_self he hname, rfl, ?_, ?_, rfl, ?_⟩
  · show e.givenAt ++ List.replicate c.toNat t = e.givenAt
    rw [htn]
    simp
  · show e.givenBy ++ List.replicate c.toNat u = e.givenBy
    rw [htn]
    simp
  · intro hneg hlen
    show e.given + c ≠ (((e.givenAt ++ List.replicate c.toNat t).length : Nat) : Int)
    rw [htn]
    simp only [List.replicate_zero, List.append_nil]
    omega

/-- Witness for C10: a fresh countable Beer instance with cap 2 accepts a
count of minus one: given becomes minus one while givenAt stays empty, so
given no longer equals the length of givenAt. -/
theorem claim_c10_nonpositive_count_witness :
    ((0 : Int) + (-1) ≤ effectiveCap []
        (sampleInstance "Beer" true 2 0 [] []) ∧ (-1 : Int) ≤ 0) ∧
    (∃ p2 e2, distributeEntitlement []
        [sampleParticipant "P1" true [sampleInstance "Beer" true 2 0 [] []]]
        "P1" "Beer" (-1) 5 9 = .ok p2 ∧
      p2.entitlements.find? (nameMatches "Beer") = some e2 ∧
      e2.given = (0 : Int) + (-1) ∧
      e2.givenAt = [] ∧
      e2.givenBy = [] ∧
      p2.entitlementHistory = [] ++
        [{ entitlementName := "Beer", action := "distributed", count := -1,
           performedAt := 9, performedBy := 5 }] ∧
      ((-1 : Int) < 0 → (0 : Int) = (([] : List Nat).length : Int) →
        e2.given ≠ ((e2.givenAt.length : Nat) : Int))) := by
  refine ⟨⟨by decide, by decide⟩, ?_⟩
  exact claim_c10_nonpositive_count []
    [sampleParticipant "P1" true [sampleInstance "Beer" true 2 0 [] []]]
    "P1" "Beer" (-1) 5 9
    (sampleParticipant "P1" true [sampleInstance "Beer" true 2 0 [] []])
    (sampleInstance "Beer" true 2 0 [] [])
    (by decide) (by decide) (by decide) (by decide) (by decide) (by decide)
    (by decide)

theorem spliceLast_append {α : Type _} (l l2 : List α) (n : Int)
    (hpos : 0 < n) (hlen : l2.length = n.toNat) :
    spliceLast (l ++ l2) n = l := by
  unfold spliceLast
  rw [if_neg (not_le.mpr hpos), List.length_append, hlen]
  have harith : l.length + n.toNat - n.toNat = l.length := by omega
  rw [harith]
  exact List.take_left l l2

/-- C5: distributing a positive count N on a countable instance (within the
effective cap, from a nonnegative given) and then undoing N returns given to
its pre-distribution value and strips exactly the N freshly-appended pairs
from the tails of givenAt and givenBy, restoring both arrays — the tail
truncation is symmetric with the append. -/
theorem claim_c5_distribute_undo_roundtrip (settings : List Setting)
    (db : List Participant) (pid n : String) (N : Int) (u t u2 t2 : Nat)
    (participant : Participant) (e : EntitlementInstance)
    (hn : n ≠ "") (hp : findParticipant db pid = some participant)
    (hpr : participant.isPresent = true)
    (he : participant.entitlements.find? (nameMatches n) = some e)
    (hc : e.isCountable = true) (hNpos : 1 ≤ N) (hg0 : 0 ≤ e.given)
    (hle : e.given + N ≤ effectiveCap settings e) :
    ∃ p2 e2, undoEntitlement (distributeDb settings db pid n N u t) pid n N
        u2 t2 = .ok p2 ∧
      p2.entitlements.find? (nameMatches n) = some e2 ∧
      e2.given = e.given ∧
      e2.givenAt = e.givenAt ∧
      e2.givenBy = e.givenBy := by
  unfold effectiveCap at hle
  have hname : nameMatches n (grantCountable N u t e) = true :=
    nameMatches_congr (grantCountable_name N u t e) (nameMatches_of_find? he)
  have hok := distribute_countable_ok u t hn hp hpr he hc hle
  have hdb2 : distributeDb settings db pid n N u t =
      saveParticipant db (recordDistribution participant e.name N u t
        (updateFirst (nameMatches n) (grantCountable N u t)
          participant.entitlements)) := by
    unfold distributeDb
    rw [hok]
  have hp2 : findParticipant (distributeDb settings db pid n N u t) pid =
      some (recordDistribution participant e.name N u t
        (updateFirst (nameMatches n) (grantCountable N u t)
          participant.entitlements)) := by
    rw [hdb2]
    exact findParticipant_saveParticipant hp rfl
  have he2 : (recordDistribution participant e.name N u t
      (updateFirst (nameMatches n) (grantCountable N u t)
        participant.entitlements)).entitlements.find? (nameMatches n) =
      some (grantCountable N u t e) :=
    find?_updateFirst_self he hname
  have hz : (grantCountable N u t e).given ≠ 0 := by
    show e.given + N ≠ 0
    omega
  have hok2 := @undo_found_pos (distributeDb settings db pid n N u t) pid n
    (recordDistribution participant e.name N u t
      (updateFirst (nameMatches n) (grantCountable N u t)
        participant.entitlements))
    (grantCountable N u t e) N u2 t2 hn hp2 he2 hz
  have hname2 : nameMatches n (applyUndo N u2 t2 (grantCountable N u t e)) =
      true :=
    nameMatches_congr (applyUndo_name N u2 t2 (grantCountable N u t e))
      (nameMatches_of_find? he2)
  have hmin : min N (e.given + N) = N := min_eq_left (by omega)
  refine ⟨_, applyUndo N u2 t2 (grantCountable N u t e), hok2,
    find?_updateFirst_self he2 hname2, ?_, ?_, ?_⟩
  · simp only [applyUndo, grantCountable, hc, if_true]
    show e.given + N - min N (e.given + N) = e.given
    rw [hmin]
    omega
  · simp only [applyUndo, grantCountable, hc, if_true]
    show spliceLast (e.givenAt ++ List.replicate N.toNat t)
        (min N (e.given + N)) = e.givenAt
    rw [hmin]
    exact spliceLast_append e.givenAt (List.replicate N.toNat t) N
      (by omega) (by rw [List.length_replicate])
  · simp only [applyUndo, grantCountable, hc, if_true]
    show spliceLast (e.givenBy ++ List.replicate N.toNat u)
        (min N (e.given + N)) = e.givenBy
    rw [hmin]
    exact spliceLast_append e.givenBy (List.replicate N.toNat u) N
      (by omega) (by rw [List.length_replicate])

/-- Witness for C5: distribute 2 Beer (cap 3) onto a fresh instance and undo
2: given returns to 0 and both arrays are restored to empty. -/
theorem claim_c5_distribute_undo_roundtrip_witness :
    ((1 : Int) ≤ 2 ∧ (0 : Int) + 2 ≤ effectiveCap []
        (sampleInstance "Beer" true 3 0 [] [])) ∧
    (∃ p2 e2, undoEntitlement
        (distributeDb []
          [sampleParticipant "P1" true [sampleInstance "Beer" true 3 0 [] []]]
          "P1" "Beer" 2 5 9) "P1" "Beer" 2 6 11 = .ok p2 ∧
      p2.entitlements.find? (nameMatches "Beer") = some e2 ∧
      e2.given = (0 : Int) ∧
      e2.givenAt = [] ∧
      e2.givenBy = []) := by
  refine ⟨⟨by decide, by decide⟩, ?_⟩
  exact claim_c5_distribute_undo_roundtrip []
    [sampleParticipant "P1" true [sampleInstance "Beer" true 3 0 [] []]]
    "P1" "Beer" 2 5 9 6 11
    (sampleParticipant "P1" true [sampleInstance "Beer" true 3 0 [] []])
    (sampleInstance "Beer" true 3 0 [] [])
    (by decide) (by decide) (by decide) (by decide) (by decide) (by decide)
    (by decide) (by decide)

/-- Counterexample to C8 as stated: the registration-time auto-assignment
(`autoAssignEntitlements`, `src/routes/participants.js`) attaches an active
template whose default flags are both false to a non-player — an attachment
the claimed rule ((isPlayer and defaultForPlayers) or (not isPlayer and
defaultForParticipants)) forbids, because its Mongo filter clause
`defaultForPlayers: participant.isPlayer` matches `defaultForPlayers: false`
for a non-player. -/
theorem claim_c8_counterexample :
    (autoAssignEntitlements []
      [{ id := 1, name := "Voucher", description := "", category := "other",
         isCountable := false, maxCount := 1, defaultForPlayers := false,
         defaultForParticipants := false, isActive := true }] 0
      (sampleParticipant "P1" true [])).entitlements.length = 1 ∧
    shouldAutoAssign (sampleParticipant "P1" true [])
      { id := 1, name := "Voucher", description := "", category := "other",
        isCountable := false, maxCount := 1, defaultForPlayers := false,
        defaultForParticipants := false, isActive := true } = false := by
  decide

/-- C8 (amended): the bulk auto-assign endpoint of the settings route
attaches a new instance for a template exactly when ((isPlayer and
defaultForPlayers) or (not isPlayer and defaultForParticipants)) holds and
the participant does not already hold a custom entitlement with that
template's name matched case-insensitively, and otherwise leaves the
participant unchanged; the registration-time auto-assignment instead
attaches an active template exactly when defaultForParticipants is true or
defaultForPlayers equals the participant's isPlayer flag, deduplicating by
template id rather than by case-insensitive name. -/
theorem claim_c8_auto_assign_rules (settings : List Setting) (now u : Nat)
    (p : Participant) (t : EntitlementTemplate) :
    ((settingsAutoAssignStep u now p t).customEntitlements.length =
        p.customEntitlements.length + 1 ↔
      (shouldAutoAssign p t = true ∧
        (p.customEntitlements.find?
          (fun e => jsToLower e.name == jsToLower t.name)).isSome = false)) ∧
    ((shouldAutoAssign p t = false ∨
        (p.customEntitlements.find?
          (fun e => jsToLower e.name == jsToLower t.name)).isSome = true) →
      settingsAutoAssignStep u now p t = p) ∧
    (shouldAutoAssign p t =
      ((p.isPlayer && t.defaultForPlayers) ||
        (!p.isPlayer && t.defaultForParticipants))) ∧
    ((autoAssignEntitlements settings [t] now p).entitlements.length =
        p.entitlements.length + 1 ↔
      (t.isActive = true ∧
        (t.defaultForParticipants = true ∨ t.defaultForPlayers = p.isPlayer) ∧
        (p.entitlements.find? (fun e => e.templateId == t.id)).isSome =
          false)) ∧
    (autoAssignEntitlements settings [t] now p = p ∨
      (autoAssignEntitlements settings [t] now p).entitlements =
        p.entitlements ++ [instanceFromTemplate settings now t]) := by
  refine ⟨?_, ?_, rfl, ?_, ?_⟩
  · cases hs : shouldAutoAssign p t with
    | false => simp [settingsAutoAssignStep, hs]
    | true =>
      cases hd : (p.customEntitlements.find?
          (fun e => jsToLower e.name == jsToLower t.name)).isSome with
      | true => simp [settingsAutoAssignStep, hs, hd]
      | false => simp [settingsAutoAssignStep, hs, hd]
  · intro h
    rcases h with hs | hd
    · simp [settingsAutoAssignStep, hs]
    · cases hs : shouldAutoAssign p t with
      | false => simp [settingsAutoAssignStep, hs]
      | true => simp [settingsAutoAssignStep, hs, hd]
  · cases hq : autoAssignQueryMatches p t with
    | false =>
      have hrun : autoAssignEntitlements settings [t] now p = p := by
        unfold autoAssignEntitlements
        simp [List.filter, hq]
      rw [hrun]
      unfold autoAssignQueryMatches at hq
      simp only [Bool.and_eq_false_iff, Bool.or_eq_false_iff,
        beq_eq_false_iff_ne] at hq
      constructor
      · intro hlen
        omega
      · rintro ⟨h1, h2, -⟩
        rcases hq with hq | ⟨hq1, hq2⟩
        · rw [h1] at hq
          exact absurd hq (by simp)
        · rcases h2 with h2 | h2
          · rw [h2] at hq1
            exact absurd hq1 (by simp)
          · exact absurd h2 hq2
    | true =>
      have hrun : autoAssignEntitlements settings [t] now p =
          autoAssignStep settings now p t := by
        unfold autoAssignEntitlements
        simp [List.filter, hq]
      rw [hrun]
      unfold autoAssignQueryMatches at hq
      simp only [Bool.and_eq_true, Bool.or_eq_true, beq_iff_eq] at hq
      cases hd : (p.entitlements.find? (fun e => e.templateId == t.id)).isSome with
      | true =>
        simp only [autoAssignStep, hd, if_true]
        exact iff_of_false (by omega) (fun h => absurd h.2.2 (by simp [hd]))
      | false =>
        simp only [autoAssignStep, hd, Bool.false_eq_true, if_false]
        exact iff_of_true (by simp) ⟨hq.1, hq.2, by simp [hd]⟩
  · cases hq : autoAssignQueryMatches p t with
    | false =>
      left
      unfold autoAssignEntitlements
      simp [List.filter, hq]
    | true =>
      have hrun : autoAssignEntitlements settings [t] now p =
          autoAssignStep settings now p t := by
        unfold autoAssignEntitlements
        simp [List.filter, hq]
      rw [hrun]
      cases hd : (p.entitlements.find? (fun e => e.templateId == t.id)).isSome with
      | true =>
        left
        simp [autoAssignStep, hd]
      | false =>
        right
        simp [autoAssignStep, hd]

/-- Witness for C8 (amended): for a non-player with no entitlements and an
active template that is default for participants, both auto-assignment paths
attach exactly one new instance. -/
theorem claim_c8_auto_assign_rules_witness :
    (settingsAutoAssignStep 5 9 (sampleParticipant "P1" true [])
      { id := 2, name := "Dinner", description := "", category := "food",
        isCountable := false, maxCount := 1, defaultForPlayers := false,
        defaultForParticipants := true,
        isActive := true }).customEntitlements.length = 0 + 1 ∧
    (autoAssignEntitlements []
      [{ id := 2, name := "Dinner", description := "", category := "food",
         isCountable := false, maxCount := 1, defaultForPlayers := false,
         defaultForParticipants := true, isActive := true }] 9
      (sampleParticipant "P1" true [])).entitlements.length = 0 + 1 := by
  have h := claim_c8_auto_assign_rules [] 9 5 (sampleParticipant "P1" true [])
    { id := 2, name := "Dinner", description := "", category := "food",
      isCountable := false, maxCount := 1, defaultForPlayers := false,
      defaultForParticipants := true, isActive := true }
  exact ⟨h.1.mpr ⟨by decide, by decide⟩,
    h.2.2.2.1.mpr ⟨by decide, by decide, by decide⟩⟩

theorem processGroupMember_step (settings : List Setting) (g : Group)
    (ty : String) (nm : Option String) (c : Int) (u t : Nat)
    (acc : GroupDistAcc) (m : GroupMember) :
    (∃ msg, processGroupMember settings g ty nm c u t acc m =
      { db := acc.db, results := acc.results,
        errors := acc.errors ++ [msg] }) ∨
    (∃ p2, processGroupMember settings g ty nm c u t acc m =
      { db := saveGroupParticipant acc.db p2,
        results := acc.results ++
          [{ participantId := m.participantId, name := p2.name,
             success := true }],
        errors := acc.errors }) := by
  unfold processGroupMember
  split
  · exact Or.inl ⟨_, rfl⟩
  split_ifs
  · exact Or.inl ⟨_, rfl⟩
  · dsimp only
    split
    · exact Or.inl ⟨_, rfl⟩
    · split_ifs
      · exact Or.inl ⟨_, rfl⟩
      · exact Or.inr ⟨_, rfl⟩
      · exact Or.inl ⟨_, rfl⟩
      · exact Or.inr ⟨_, rfl⟩
  · dsimp only
    split_ifs
    · exact Or.inl ⟨_, rfl⟩
    · exact Or.inr ⟨_, rfl⟩
  · split
    · exact Or.inl ⟨_, rfl⟩
    · split_ifs
      · exact Or.inl ⟨_, rfl⟩
      · exact Or.inr ⟨_, rfl⟩

/-- C9: in group distribution each member is processed independently — every
member step either appends exactly one error string to the collected list,
leaving the collection and the results untouched, or saves exactly one
mutated participant and appends one success row, leaving the errors
untouched; in particular a member whose participant is found but not marked
present contributes exactly the error string naming the member, and the loop
then continues with the remaining members; for the concrete group of three
with one absent member, distributing the non-countable breakfast entitlement
yields two per-member successes, one collected error naming the absent
member, and a response that still reports success. -/
theorem claim_c9_group_fanout (settings : List Setting) (g : Group)
    (ty : String) (nm : Option String) (c : Int) (u t : Nat) :
    (∀ acc m,
      (∃ msg, processGroupMember settings g ty nm c u t acc m =
        { db := acc.db, results := acc.results,
          errors := acc.errors ++ [msg] }) ∨
      (∃ p2, processGroupMember settings g ty nm c u t acc m =
        { db := saveGroupParticipant acc.db p2,
          results := acc.results ++
            [{ participantId := m.participantId, name := p2.name,
               success := true }],
          errors := acc.errors })) ∧
    (∀ acc m participant rest,
      findGroupParticipant acc.db m.participantId = some participant →
      participant.isPresent = false →
      processGroupMember settings g ty nm c u t acc m =
        { db := acc.db, results := acc.results,
          errors := acc.errors ++
            [m.participantId ++ ": Not marked present"] } ∧
      (m :: rest).foldl (processGroupMember settings g ty nm c u t) acc =
        rest.foldl (processGroupMember settings g ty nm c u t)
          (processGroupMember settings g ty nm c u t acc m)) ∧
    (resultsOf (groupDistribute []
        [{ id := 1, name := "G", isActive := true,
           members := [{ participantId := "A" }, { participantId := "B" },
             { participantId := "C" }] }]
        [sampleGroupParticipant "A" "Ann" true,
         sampleGroupParticipant "B" "Bea" false,
         sampleGroupParticipant "C" "Cal" true] 1 "breakfast" none 1 5 9) =
      [{ participantId := "A", name := "Ann", success := true },
       { participantId := "C", name := "Cal", success := true }] ∧
     errorsOf (groupDistribute []
        [{ id := 1, name := "G", isActive := true,
           members := [{ participantId := "A" }, { participantId := "B" },
             { participantId := "C" }] }]
        [sampleGroupParticipant "A" "Ann" true,
         sampleGroupParticipant "B" "Bea" false,
         sampleGroupParticipant "C" "Cal" true] 1 "breakfast" none 1 5 9) =
      ["B: Not marked present"] ∧
     successOf (groupDistribute []
        [{ id := 1, name := "G", isActive := true,
           members := [{ participantId := "A" }, { participantId := "B" },
             { participantId := "C" }] }]
        [sampleGroupParticipant "A" "Ann" true,
         sampleGroupParticipant "B" "Bea" false,
         sampleGroupParticipant "C" "Cal" true] 1 "breakfast" none 1 5 9) =
      true) := by
  refine ⟨processGroupMember_step settings g ty nm c u t, ?_, ?_⟩
  · intro acc m participant rest hfind hpres
    constructor
    · unfold processGroupMember
      simp only [hfind]
      rw [if_pos hpres]
      rfl
    · rfl
  · exact ⟨by decide, by decide, by decide⟩

/-- Witness for C9: for a singleton accumulator holding one absent
participant, the member step appends exactly the one error string and leaves
the collection and results unchanged. -/
theorem claim_c9_group_fanout_witness :
    processGroupMember [] (sampleGroup ["B"]) "breakfast" none 1 5 9
      { db := [sampleGroupParticipant "B" "Bea" false], results := [],
        errors := [] }
      { participantId := "B" } =
      { db := [sampleGroupParticipant "B" "Bea" false], results := [],
        errors := [] ++ ["B" ++ ": Not marked present"] } ∧
    ([{ participantId := "B" }] : List GroupMember).foldl
        (processGroupMember [] (sampleGroup ["B"]) "breakfast" none 1 5 9)
        { db := [sampleGroupParticipant "B" "Bea" false], results := [],
          errors := [] } =
      ([] : List GroupMember).foldl
        (processGroupMember [] (sampleGroup ["B"]) "breakfast" none 1 5 9)
        (processGroupMember [] (sampleGroup ["B"]) "breakfast" none 1 5 9
          { db := [sampleGroupParticipant "B" "Bea" false], results := [],
            errors := [] }
          { participantId := "B" }) := by
  have h := (claim_c9_group_fanout [] (sampleGroup ["B"])
      "breakfast" none 1 5 9).2.1
    { db := [sampleGroupParticipant "B" "Bea" false], results := [],
      errors := [] }
    { participantId := "B" } (sampleGroupParticipant "B" "Bea" false) []
    (by decide) (by decide)
  refine ⟨?_, h.2⟩
  rw [h.1]

theorem spliceLast_length_of_pos {α : Type _} (l : List α) (n : Int)
    (h : 0 < n) : (spliceLast l n).length = l.length - n.toNat := by
  unfold spliceLast
  rw [if_neg (not_le.mpr h)]
  rw [List.length_take]
  omega

theorem effectiveCap_applyUndo (settings : List Setting) (c : Int)
    (u t : Nat) (e : EntitlementInstance) :
    effectiveCap settings (applyUndo c u t e) = effectiveCap settings e := by
  unfold applyUndo
  split_ifs <;> rfl

theorem isCountable_applyUndo (c : Int) (u t : Nat)
    (e : EntitlementInstance) :
    (applyUndo c u t e).isCountable = e.isCountable := by
  unfold applyUndo
  split_ifs <;> rfl

theorem capWellFormed_applyUndo {settings : List Setting} {c : Int}
    {u t : Nat} {e : EntitlementInstance} (h : capWellFormed settings e) :
    capWellFormed settings (applyUndo c u t e) := by
  unfold capWellFormed at h ⊢
  rw [effectiveCap_applyUndo, isCountable_applyUndo]
  exact h

theorem entitlementInvariant_grantCountable {settings : List Setting}
    {e : EntitlementInstance} {c : Int} (u t : Nat)
    (h : entitlementInvariant settings e) (hc : 1 ≤ c)
    (hle : e.given + c ≤ effectiveCap settings e) :
    entitlementInvariant settings (grantCountable c u t e) := by
  obtain ⟨h1, h2, h3, h4⟩ := h
  unfold effectiveCap at h4 hle
  refine ⟨?_, ?_, ?_, ?_⟩
  · show e.given + c = ((e.givenAt ++ List.replicate c.toNat t).length : Int)
    rw [List.length_append, List.length_replicate]
    omega
  · show e.given + c = ((e.givenBy ++ List.replicate c.toNat u).length : Int)
    rw [List.length_append, List.length_replicate]
    omega
  · show 0 ≤ e.given + c
    omega
  · show e.given + c ≤ getEntitlementLimit settings e.name e.maxCount
    exact hle

theorem entitlementInvariant_grantNonCountable {settings : List Setting}
    {e : EntitlementInstance} (u t : Nat)
    (h : entitlementInvariant settings e) (hcap : capWellFormed settings e)
    (hnc : e.isCountable = false) (hlt : e.given < effectiveCap settings e) :
    entitlementInvariant settings (grantNonCountable settings u t e) := by
  obtain ⟨h1, h2, h3, h4⟩ := h
  obtain ⟨hc0, hc1⟩ := hcap
  have hcle : effectiveCap settings e ≤ 1 := hc1 hnc
  unfold effectiveCap at hc0 hcle hlt
  refine ⟨?_, ?_, ?_, ?_⟩
  · show getEntitlementLimit settings e.name e.maxCount =
      ((e.givenAt ++ [t]).length : Int)
    rw [List.length_append]
    simp only [List.length_cons, List.length_nil]
    omega
  · show getEntitlementLimit settings e.name e.maxCount =
      ((e.givenBy ++ [u]).length : Int)
    rw [List.length_append]
    simp only [List.length_cons, List.length_nil]
    omega
  · show (0 : Int) ≤ getEntitlementLimit settings e.name e.maxCount
    omega
  · show getEntitlementLimit settings e.name e.maxCount ≤
      getEntitlementLimit settings e.name e.maxCount
    exact le_refl _

theorem entitlementInvariant_applyUndo {settings : List Setting}
    {e : EntitlementInstance} {c : Int} (u t : Nat)
    (h : entitlementInvariant settings e) (hcap : capWellFormed settings e)
    (hc : 1 ≤ c) (hnz : e.given ≠ 0) :
    entitlementInvariant settings (applyUndo c u t e) := by
  obtain ⟨h1, h2, h3, h4⟩ := h
  obtain ⟨hc0, -⟩ := hcap
  unfold effectiveCap at h4 hc0
  have hgiven1 : 1 ≤ e.given := by omega
  have hminpos : 0 < min c e.given := by omega
  cases hcnt : e.isCountable with
  | true =>
    have hform : applyUndo c u t e =
        { e with given := e.given - min c e.given,
                 givenAt := spliceLast e.givenAt (min c e.given),
                 givenBy := spliceLast e.givenBy (min c e.given),
                 undoneBy := some u, undoneAt := some t,
                 lastUndoneCount := min c e.given } := by
      unfold applyUndo
      rw [if_pos hcnt]
    rw [hform]
    have ha := spliceLast_length_of_pos e.givenAt (min c e.given) hminpos
    have hb := spliceLast_length_of_pos e.givenBy (min c e.given) hminpos
    refine ⟨?_, ?_, ?_, ?_⟩
    · show e.given - min c e.given =
        ((spliceLast e.givenAt (min c e.given)).length : Int)
      rw [ha]
      omega
    · show e.given - min c e.given =
        ((spliceLast e.givenBy (min c e.given)).length : Int)
      rw [hb]
      omega
    · show 0 ≤ e.given - min c e.given
      omega
    · show e.given - min c e.given ≤
        getEntitlementLimit settings e.name e.maxCount
      omega
  | false =>
    have hform : applyUndo c u t e =
        { e with given := 0, givenAt := [], givenBy := [],
                 undoneBy := some u, undoneAt := some t,
                 lastUndoneCount := min c e.given } := by
      unfold applyUndo
      rw [if_neg (by simp [hcnt])]
    rw [hform]
    exact ⟨by simp, by simp, le_refl _, hc0⟩

theorem mem_of_findParticipant {db : List Participant} {pid : String}
    {p : Participant} (h : findParticipant db pid = some p) : p ∈ db :=
  List.mem_of_find?_eq_some h

theorem mem_saveParticipant {db : List Participant} {q p : Participant}
    (h : q ∈ saveParticipant db p) : q ∈ db ∨ q = p := by
  unfold saveParticipant at h
  rcases List.mem_map.mp h with ⟨r, hr, hrq⟩
  by_cases hcond : (r.participantId == p.participantId) = true
  · rw [if_pos hcond] at hrq
    exact Or.inr hrq.symm
  · rw [if_neg hcond] at hrq
    exact Or.inl (hrq ▸ hr)

theorem ledger_preserved_distribute {settings : List Setting}
    {db : List Participant} {pid n : String} {c : Int} {u t : Nat}
    {p2 : Participant} (hdb : dbWellFormed settings db) (hc : 1 ≤ c)
    (hok : distributeEntitlement settings db pid n c u t = .ok p2) :
    ledgerInvariant settings p2 ∧ capsWellFormed settings p2 := by
  unfold distributeEntitlement at hok
  split_ifs at hok with hn
  cases hfp : findParticipant db pid with
  | none =>
    rw [hfp] at hok
    exact absurd hok (by simp)
  | some participant =>
    rw [hfp] at hok
    simp only [] at hok
    obtain ⟨hledger, hcaps⟩ := hdb participant (mem_of_findParticipant hfp)
    split_ifs at hok with hpr
    cases hfe : participant.entitlements.find? (nameMatches n) with
    | none =>
      rw [hfe] at hok
      exact absurd hok (by simp)
    | some e =>
      rw [hfe] at hok
      simp only [] at hok
      have hmemE := List.mem_of_find?_eq_some hfe
      have hInvE := hledger e hmemE
      have hcapE := hcaps e hmemE
      split_ifs at hok with hcnt hlim halready
      · -- countable success
        have hp2 : p2 = recordDistribution participant e.name c u t
            (updateFirst (nameMatches n) (grantCountable c u t)
              participant.entitlements) := by
          cases hok
          rfl
        subst hp2
        constructor
        · intro y hy
          rcases mem_updateFirst_of_find? hfe hy with hmem | hnew
          · exact hledger y hmem
          · rw [hnew]
            exact entitlementInvariant_grantCountable u t hInvE hc
              (not_lt.mp hlim)
        · intro y hy
          rcases mem_updateFirst_of_find? hfe hy with hmem | hnew
          · exact hcaps y hmem
          · rw [hnew]
            exact hcapE
      · -- non-countable success
        have hp2 : p2 = recordDistribution participant e.name c u t
            (updateFirst (nameMatches n) (grantNonCountable settings u t)
              participant.entitlements) := by
          cases hok
          rfl
        subst hp2
        have hnc : e.isCountable = false := by
          revert hcnt
          cases e.isCountable <;> simp
        constructor
        · intro y hy
          rcases mem_updateFirst_of_find? hfe hy with hmem | hnew
          · exact hledger y hmem
          · rw [hnew]
            exact entitlementInvariant_grantNonCountable u t hInvE hcapE hnc
              (not_le.mp halready)
        · intro y hy
          rcases mem_updateFirst_of_find? hfe hy with hmem | hnew
          · exact hcaps y hmem
          · rw [hnew]
            exact hcapE

theorem ledger_preserved_undo {settings : List Setting}
    {db : List Participant} {pid n : String} {c : Int} {u t : Nat}
    {p2 : Participant} (hdb : dbWellFormed settings db) (hc : 1 ≤ c)
    (hok : undoEntitlement db pid n c u t = .ok p2) :
    ledgerInvariant settings p2 ∧ capsWellFormed settings p2 := by
  unfold undoEntitlement at hok
  split_ifs at hok with hn
  cases hfp : findParticipant db pid with
  | none =>
    rw [hfp] at hok
    exact absurd hok (by simp)
  | some participant =>
    rw [hfp] at hok
    simp only [] at hok
    obtain ⟨hledger, hcaps⟩ := hdb participant (mem_of_findParticipant hfp)
    cases hfe : participant.entitlements.find? (nameMatches n) with
    | none =>
      rw [hfe] at hok
      exact absurd hok (by simp)
    | some e =>
      rw [hfe] at hok
      simp only [] at hok
      have hmemE := List.mem_of_find?_eq_some hfe
      have hInvE := hledger e hmemE
      have hcapE := hcaps e hmemE
      split_ifs at hok with hz
      have hp2 : p2 = { participant with
          entitlements := updateFirst (nameMatches n) (applyUndo c u t)
            participant.entitlements,
          entitlementHistory := participant.entitlementHistory ++
            [{ entitlementName := e.name, action := "undone",
               count := min c e.given, performedAt := t,
               performedBy := u }] } := by
        cases hok
        rfl
      subst hp2
      constructor
      · intro y hy
        rcases mem_updateFirst_of_find? hfe hy with hmem | hnew
        · exact hledger y hmem
        · rw [hnew]
          exact entitlementInvariant_applyUndo u t hInvE hcapE hc hz
      · intro y hy
        rcases mem_updateFirst_of_find? hfe hy with hmem | hnew
        · exact hcaps y hmem
        · rw [hnew]
          exact capWellFormed_applyUndo hcapE

theorem dbWellFormed_save {settings : List Setting} {db : List Participant}
    {p : Participant} (hdb : dbWellFormed settings db)
    (hp : ledgerInvariant settings p ∧ capsWellFormed settings p) :
    dbWellFormed settings (saveParticipant db p) := by
  intro q hq
  rcases mem_saveParticipant hq with hmem | heq
  · exact hdb q hmem
  · rw [heq]
    exact hp

theorem dbWellFormed_applyOp {settings : List Setting} {pid : String}
    {db : List Participant} {op : LedgerOp}
    (hdb : dbWellFormed settings db) (hop : opCountPositive op) :
    dbWellFormed settings (applyOp settings pid db op) := by
  cases op with
  | distribute n c u t =>
    show dbWellFormed settings (distributeDb settings db pid n c u t)
    unfold distributeDb
    cases hres : distributeEntitlement settings db pid n c u t with
    | error a => exact hdb
    | ok p2 =>
      exact dbWellFormed_save hdb (ledger_preserved_distribute hdb hop hres)
  | undo n c u t =>
    show dbWellFormed settings (undoDb db pid n c u t)
    unfold undoDb
    cases hres : undoEntitlement db pid n c u t with
    | error a => exact hdb
    | ok p2 =>
      exact dbWellFormed_save hdb (ledger_preserved_undo hdb hop hres)

theorem dbWellFormed_applyOps {settings : List Setting} {pid : String}
    (ops : List LedgerOp) (db : List Participant)
    (hdb : dbWellFormed settings db)
    (hops : ∀ op ∈ ops, opCountPositive op) :
    dbWellFormed settings (applyOps settings pid db ops) := by
  induction ops generalizing db with
  | nil => exact hdb
  | cons op rest ih =>
    show dbWellFormed settings
      (applyOps settings pid (applyOp settings pid db op) rest)
    exact ih (applyOp settings pid db op)
      (dbWellFormed_applyOp hdb (hops op (List.mem_cons_self _ _)))
      (fun o ho => hops o (List.mem_cons_of_mem _ ho))

/-- Counterexample to C1 as stated: a freshly attached non-countable
instance with cap 2 satisfies the invariant, yet a single distribute
operation of count 1 — a legal operation of the specification — leaves it
with given = 2 but only one (timestamp, grantor) pair, violating
given == length(givenAt): the non-countable branch sets given to the
effective cap while appending exactly one pair. -/
theorem claim_c1_counterexample :
    entitlementInvariant [] (sampleInstance "Soda" false 2 0 [] []) ∧
    applyOps [] "P1"
      [sampleParticipant "P1" true [sampleInstance "Soda" false 2 0 [] []]]
      [LedgerOp.distribute "Soda" 1 5 9] =
      [{ sampleParticipant "P1" true [sampleInstance "Soda" false 2 0 [] []] with
           entitlements := [{ sampleInstance "Soda" false 2 0 [] [] with
                                given := 2, givenAt := [9], givenBy := [5] }],
           entitlementHistory := [{ entitlementName := "Soda",
                                    action := "distributed", count := 1,
                                    performedAt := 9, performedBy := 5 }] }] ∧
    ¬ entitlementInvariant [] { sampleInstance "Soda" false 2 0 [] [] with
                                  given := 2, givenAt := [9], givenBy := [5] } := by
  refine ⟨by decide, by decide, by decide⟩

/-- C1 (amended): starting from a collection whose instances all satisfy the
ledger invariant and whose effective caps are well formed (nonnegative, and
at most 1 on non-countable instances — freshly attached instances with such
caps qualify), any sequence of single-participant distribute and undo
operations whose requested counts are positive preserves
given == length(givenAt) == length(givenBy) and
0 <= given <= effective cap on every instance of every participant. -/
theorem claim_c1_invariant_preservation (settings : List Setting)
    (pid : String) (ops : List LedgerOp) (db : List Participant)
    (hdb : dbWellFormed settings db)
    (hops : ∀ op ∈ ops, opCountPositive op) :
    ∀ p ∈ applyOps settings pid db ops, ∀ e ∈ p.entitlements,
      entitlementInvariant settings e := by
  intro p hp e he
  exact ((dbWellFormed_applyOps ops db hdb hops) p hp).1 e he

/-- Witness for C1: a participant holding a fresh countable Beer (cap 2) and
a fresh non-countable Lunch (cap 1) runs distribute Beer, distribute Lunch,
undo Beer; every instance still satisfies the invariant afterwards. -/
theorem claim_c1_invariant_preservation_witness :
    dbWellFormed []
      [sampleParticipant "P1" true
        [sampleInstance "Beer" true 2 0 [] [],
         sampleInstance "Lunch" false 1 0 [] []]] ∧
    (∀ op ∈ [LedgerOp.distribute "Beer" 1 5 9,
        LedgerOp.distribute "Lunch" 1 5 9, LedgerOp.undo "Beer" 1 6 11],
      opCountPositive op) ∧
    (∀ p ∈ applyOps [] "P1"
        [sampleParticipant "P1" true
          [sampleInstance "Beer" true 2 0 [] [],
           sampleInstance "Lunch" false 1 0 [] []]]
        [LedgerOp.distribute "Beer" 1 5 9,
         LedgerOp.distribute "Lunch" 1 5 9, LedgerOp.undo "Beer" 1 6 11],
      ∀ e ∈ p.entitlements, entitlementInvariant [] e) := by
  refine ⟨by decide, by decide, ?_⟩
  exact claim_c1_invariant_preservation [] "P1"
    [LedgerOp.distribute "Beer" 1 5 9,
     LedgerOp.distribute "Lunch" 1 5 9, LedgerOp.undo "Beer" 1 6 11]
    [sampleParticipant "P1" true
      [sampleInstance "Beer" true 2 0 [] [],
       sampleInstance "Lunch" false 1 0 [] []]]
    (by decide) (by decide)

end EventBackend
